import Mathlib

/-!
# Verification of the immich-lib scoring and execution pipeline

Shallow embedding of the duplicate-resolution core of `immich-lib`:

* `src/scoring.rs` — metadata scoring, conflict detection, winner selection
  (`MetadataScore`, `detect_conflicts`, `DuplicateAnalysis::from_group`);
* `src/executor.rs` — the per-group execution pipeline
  (`consolidate_metadata`, `transfer_albums`, `transfer_single_album`,
  `execute_group`);
* the data model from `src/models/`.

Modelling conventions:

* Rust `f64` GPS coordinates are modelled as rationals `ℚ` (the code only
  subtracts, takes absolute values and compares; no claim depends on binary
  floating-point rounding).
* Rust `u32`/`u64`/`usize` are modelled as `Nat` (the scoring totals are at
  most 100 and all other quantities are small; no overflow is reachable).
* Fallible remote calls are modelled by oracle functions in an `Env`
  record returning `Except String _` (`.error` = the Rust `Err` case, the
  string being the rendered error message).
* `Vec::remove(0)` on a possibly-empty vector (a panic site) is modelled by
  returning `Option`, with `none` for the panic.
* Rust's stable `sort_by` with comparator `cmp` is modelled as
  `List.insertionSort le` where `le a b ↔ cmp a b ≠ Greater`; Mathlib's
  `insertionSort` is a stable sort, matching the documented contract of
  `slice::sort_by`.
-/

namespace Immich

/-! ## Data model (`src/models/exif.rs`, `asset.rs`, `duplicate.rs`, `album.rs`)

Only the fields that the scoring/execution core reads are carried;
the remaining fields of the Rust structs (checksum, flags, ISO, …) are
never consulted by any function modelled here. -/

/-- EXIF metadata for an asset (`ExifInfo` in `src/models/exif.rs`). -/
structure ExifInfo where
  latitude : Option ℚ
  longitude : Option ℚ
  city : Option String
  country : Option String
  time_zone : Option String
  date_time_original : Option String
  make : Option String
  model : Option String
  lens_model : Option String
  file_size_in_byte : Option Nat
  description : Option String
deriving DecidableEq

/-- `ExifInfo::has_gps`: both coordinates present. -/
def ExifInfo.has_gps (e : ExifInfo) : Bool :=
  e.latitude.isSome && e.longitude.isSome

/-- `ExifInfo::has_camera_info`: make or model present. -/
def ExifInfo.has_camera_info (e : ExifInfo) : Bool :=
  e.make.isSome || e.model.isSome

/-- `ExifInfo::has_timezone`. -/
def ExifInfo.has_timezone (e : ExifInfo) : Bool :=
  e.time_zone.isSome

/-- `ExifInfo::has_capture_time`. -/
def ExifInfo.has_capture_time (e : ExifInfo) : Bool :=
  e.date_time_original.isSome

/-- `ExifInfo::has_lens_info`. -/
def ExifInfo.has_lens_info (e : ExifInfo) : Bool :=
  e.lens_model.isSome

/-- `ExifInfo::has_location`: city or country present. -/
def ExifInfo.has_location (e : ExifInfo) : Bool :=
  e.city.isSome || e.country.isSome

/-- An asset as returned by the API (`AssetResponse` in `src/models/asset.rs`). -/
structure AssetResponse where
  id : String
  original_file_name : String
  exif_info : Option ExifInfo
deriving DecidableEq

/-- A duplicate group (`DuplicateGroup` in `src/models/duplicate.rs`). -/
structure DuplicateGroup where
  duplicate_id : String
  assets : List AssetResponse
deriving DecidableEq

/-- An album (`AlbumResponse` in `src/models/album.rs`): the executor reads
only `id` and `album_name`. -/
structure AlbumResponse where
  id : String
  album_name : String
deriving DecidableEq

/-! ## Scoring (`src/scoring.rs`, `mod weights` and `MetadataScore`) -/

def weights.GPS : Nat := 30
def weights.TIMEZONE : Nat := 20
def weights.CAMERA_INFO : Nat := 15
def weights.CAPTURE_TIME : Nat := 15
def weights.LENS_INFO : Nat := 10
def weights.LOCATION : Nat := 10

/-- Metadata completeness score (`MetadataScore`). -/
structure MetadataScore where
  gps : Nat
  timezone : Nat
  camera_info : Nat
  capture_time : Nat
  lens_info : Nat
  location : Nat
  total : Nat
deriving DecidableEq

/-- `MetadataScore::from_asset`: an asset with no EXIF block scores all
zero (the `Default` instance); otherwise each category contributes its
weight whenever the corresponding `has_*` helper holds, and `total` is the
sum. -/
def MetadataScore.from_asset (asset : AssetResponse) : MetadataScore :=
  match asset.exif_info with
  | none => ⟨0, 0, 0, 0, 0, 0, 0⟩
  | some exif =>
    let gps := if exif.has_gps then weights.GPS else 0
    let timezone := if exif.has_timezone then weights.TIMEZONE else 0
    let camera_info := if exif.has_camera_info then weights.CAMERA_INFO else 0
    let capture_time := if exif.has_capture_time then weights.CAPTURE_TIME else 0
    let lens_info := if exif.has_lens_info then weights.LENS_INFO else 0
    let location := if exif.has_location then weights.LOCATION else 0
    let total := gps + timezone + camera_info + capture_time + lens_info + location
    ⟨gps, timezone, camera_info, capture_time, lens_info, location, total⟩

/-! ## Conflict detection (`src/scoring.rs`) -/

/-- `GPS_THRESHOLD`: 0.0001 degrees, roughly 11 metres at the equator. -/
def GPS_THRESHOLD : ℚ := 1 / 10000

/-- The pair comparison inside `has_gps_conflict`: the two points differ
by more than the threshold in latitude or in longitude. -/
def gpsBeyond (p q : ℚ × ℚ) : Bool :=
  decide (GPS_THRESHOLD < |p.1 - q.1|) || decide (GPS_THRESHOLD < |p.2 - q.2|)

/-- `has_gps_conflict`: the double loop over index pairs `i < j` testing
`gpsBeyond`, written as a recursion over successive heads (the `len < 2`
early return of the Rust code is subsumed: with fewer than two points there
is no pair to test). -/
def has_gps_conflict : List (ℚ × ℚ) → Bool
  | [] => false
  | p :: rest => rest.any (fun q => gpsBeyond p q) || has_gps_conflict rest

/-- The pair comparison inside `dedupe_gps`: within threshold on both axes. -/
def gpsWithin (p q : ℚ × ℚ) : Bool :=
  decide (|p.1 - q.1| ≤ GPS_THRESHOLD) && decide (|p.2 - q.2| ≤ GPS_THRESHOLD)

/-- Loop of `dedupe_gps`: keep a point unless it is within threshold of an
already-kept point; `unique` accumulates the kept points in order. -/
def dedupe_gps_go (unique : List (ℚ × ℚ)) : List (ℚ × ℚ) → List (ℚ × ℚ)
  | [] => unique
  | c :: cs =>
    if unique.any (fun u => gpsWithin c u) then dedupe_gps_go unique cs
    else dedupe_gps_go (unique ++ [c]) cs

/-- `dedupe_gps`: deduplicate GPS coordinates within the threshold. -/
def dedupe_gps (coords : List (ℚ × ℚ)) : List (ℚ × ℚ) :=
  dedupe_gps_go [] coords

/-- Model of Rust `str::trim`: strip leading and trailing whitespace.
(Defined over the character list so that it is kernel-computable;
`String.trim` itself does not reduce definitionally.) -/
def strTrim (s : String) : String :=
  String.mk (((s.data.dropWhile Char.isWhitespace).reverse.dropWhile Char.isWhitespace).reverse)

/-- Model of Rust `str::to_lowercase`: characterwise lowercasing (the
values compared by the code are ASCII identifiers, where this matches
Unicode lowercasing). -/
def strToLower (s : String) : String :=
  String.mk (s.data.map Char.toLower)

/-- The normalization inside `find_unique_strings`:
`value.trim().to_lowercase()`. -/
def normalizeStr (s : String) : String :=
  strToLower (strTrim s)

/-- Loop of `find_unique_strings`: `seen` accumulates normalized forms,
and the returned list accumulates `value.trim()` for each first-seen
non-empty normalized form. -/
def find_unique_go (seen : List String) : List String → List String
  | [] => []
  | v :: vs =>
    let normalized := normalizeStr v
    if !normalized.isEmpty && !seen.contains normalized then
      strTrim v :: find_unique_go (seen ++ [normalized]) vs
    else
      find_unique_go seen vs

/-- `find_unique_strings`: unique string values (trimmed, compared
case-insensitively, empty-after-trim values dropped); `none` when zero or
one unique value remains. -/
def find_unique_strings (values : List String) : Option (List String) :=
  if values.isEmpty then none
  else
    let unique_original := find_unique_go [] values
    if unique_original.length > 1 then some unique_original else none

/-- Detected conflict between duplicate assets (`MetadataConflict`). -/
inductive MetadataConflict where
  | Gps (values : List (ℚ × ℚ))
  | Timezone (values : List String)
  | CameraInfo (values : List String)
  | CaptureTime (values : List String)
deriving DecidableEq

/-- The GPS pairs collected by `detect_conflicts`: assets with an EXIF
block and both coordinates. -/
def gpsValuesOf (assets : List AssetResponse) : List (ℚ × ℚ) :=
  (assets.filterMap (fun a => a.exif_info)).filterMap fun e =>
    match e.latitude, e.longitude with
    | some lat, some lon => some (lat, lon)
    | _, _ => none

/-- The timezone strings collected by `detect_conflicts`. -/
def timezoneValuesOf (assets : List AssetResponse) : List String :=
  (assets.filterMap (fun a => a.exif_info)).filterMap fun e => e.time_zone

/-- The camera strings collected by `detect_conflicts`: `"{make} {model}"`
trimmed, skipped when both parts are absent/empty. -/
def cameraValueOf (e : ExifInfo) : Option String :=
  let mk := e.make.getD ""
  let md := e.model.getD ""
  if mk.isEmpty && md.isEmpty then none
  else some (strTrim (mk ++ " " ++ md))

def cameraValuesOf (assets : List AssetResponse) : List String :=
  (assets.filterMap (fun a => a.exif_info)).filterMap cameraValueOf

/-- The capture-time strings collected by `detect_conflicts`. -/
def captureTimeValuesOf (assets : List AssetResponse) : List String :=
  (assets.filterMap (fun a => a.exif_info)).filterMap fun e => e.date_time_original

/-- `detect_conflicts`: check GPS, timezone, camera and capture time in
that order, pushing one conflict per field that disagrees. -/
def detect_conflicts (assets : List AssetResponse) : List MetadataConflict :=
  let gps_values := gpsValuesOf assets
  let gpsPart : List MetadataConflict :=
    if has_gps_conflict gps_values then [.Gps (dedupe_gps gps_values)] else []
  let tzPart : List MetadataConflict :=
    match find_unique_strings (timezoneValuesOf assets) with
    | some unique => [.Timezone unique]
    | none => []
  let camPart : List MetadataConflict :=
    match find_unique_strings (cameraValuesOf assets) with
    | some unique => [.CameraInfo unique]
    | none => []
  let ctPart : List MetadataConflict :=
    match find_unique_strings (captureTimeValuesOf assets) with
    | some unique => [.CaptureTime unique]
    | none => []
  gpsPart ++ tzPart ++ camPart ++ ctPart

/-! ## Duplicate analysis (`DuplicateAnalysis::from_group`) -/

/-- A scored asset (`ScoredAsset`). -/
structure ScoredAsset where
  asset_id : String
  filename : String
  score : MetadataScore
  file_size : Option Nat
deriving DecidableEq

/-- `file_size.unwrap_or(0)`, as used by the sort comparator. -/
def sizeOr0 (a : ScoredAsset) : Nat :=
  a.file_size.getD 0

/-- The "goes no later than" relation induced by the Rust comparator
`|a, b| b.score.total.cmp(&a.score.total).then(size_b.cmp(&size_a))`:
`rank a b` holds iff the comparator does not order `a` strictly after `b`,
i.e. iff `cmp a b ≠ Greater`. A stable sort by the comparator is exactly a
stable sort into `rank`-nondecreasing order. -/
def rank (a b : ScoredAsset) : Prop :=
  b.score.total < a.score.total ∨
    (b.score.total = a.score.total ∧ sizeOr0 b ≤ sizeOr0 a)

instance : DecidableRel rank := fun a b =>
  inferInstanceAs (Decidable (b.score.total < a.score.total ∨
    (b.score.total = a.score.total ∧ sizeOr0 b ≤ sizeOr0 a)))

/-- The per-asset projection done by `from_group` when building the
`scored` vector. -/
def scoreAsset (asset : AssetResponse) : ScoredAsset :=
  { asset_id := asset.id
    filename := asset.original_file_name
    score := MetadataScore.from_asset asset
    file_size := asset.exif_info.bind fun e => e.file_size_in_byte }

/-- Analysis result for a duplicate group (`DuplicateAnalysis`). -/
structure DuplicateAnalysis where
  duplicate_id : String
  winner : ScoredAsset
  losers : List ScoredAsset
  conflicts : List MetadataConflict
  needs_review : Bool
deriving DecidableEq

/-- `DuplicateAnalysis::from_group`: score all assets, stable-sort by the
comparator (score total descending, then file size descending), detect
conflicts over the original asset list, and split off the first sorted
element as winner. The Rust code performs `scored.remove(0)`, which panics
on an empty group; the panic is modelled as `none`. -/
def DuplicateAnalysis.from_group (group : DuplicateGroup) : Option DuplicateAnalysis :=
  let scored := (group.assets.map scoreAsset).insertionSort rank
  let conflicts := detect_conflicts group.assets
  let needs_review := !conflicts.isEmpty
  match scored with
  | [] => none
  | winner :: losers =>
    some { duplicate_id := group.duplicate_id, winner, losers, conflicts, needs_review }

/-! ## Execution model (`src/models/execution.rs`) -/

/-- Outcome of a single operation (`OperationResult`). Paths are modelled
as strings. -/
inductive OperationResult where
  | Success (id : String) (path : Option String)
  | Failed (id : String) (error : String)
  | Skipped (id : String) (reason : String)
deriving DecidableEq

/-- `ConsolidationResult`. -/
structure ConsolidationResult where
  gps_transferred : Bool
  datetime_transferred : Bool
  description_transferred : Bool
  source_asset_id : Option String
deriving DecidableEq

/-- `AlbumTransferResult`. -/
structure AlbumTransferResult where
  albums_transferred : Nat
  album_ids : List String
  album_names : List String
  had_failures : Bool
  error_message : Option String
deriving DecidableEq

/-- `GroupResult`. -/
structure GroupResult where
  duplicate_id : String
  winner_id : String
  consolidation_result : Option ConsolidationResult
  album_transfer_result : Option AlbumTransferResult
  download_results : List OperationResult
  delete_result : Option OperationResult
deriving DecidableEq

/-- `ExecutionConfig`. -/
structure ExecutionConfig where
  requests_per_sec : Nat
  max_concurrent : Nat
  backup_dir : String
  force_delete : Bool
  preserve_albums : Bool
deriving DecidableEq

/-! ## Remote-service oracle

The executor's outbound calls (`ImmichClient` methods) are modelled by an
environment of oracle functions. `.error s` models the Rust `Err(e)` case
with `s` the rendered message `e.to_string()`. The rate gate
(`rate_limited`) only suspends; it never changes a call's result, so it
does not appear in the functional model.

* `transferAttempt albumId n` gives the outcome of the `n`-th
  `try_transfer_album` attempt for that album. Within one `execute_group`
  the winner id and loser ids passed to `try_transfer_album` are fixed, so
  keying the oracle by album id and attempt number loses no generality;
  no claim depends on the add/remove interior of a single attempt.
* `updateMetadata` is keyed by the target (winner) asset id; the payload
  values do not influence the executor's control flow. -/
structure Env where
  getAsset : String → Except String AssetResponse
  getAlbumsForAsset : String → Except String (List AlbumResponse)
  download : String → Except String Nat
  deleteAssets : List String → Bool → Except String Unit
  updateMetadata : String → Except String Unit
  transferAttempt : String → Nat → Bool

/-! ## Metadata consolidation (`Executor::consolidate_metadata`) -/

/-- The mutable scan state of `consolidate_metadata`: the per-field best
sources (`best_gps`, `best_datetime`, `best_description`). -/
structure ScanState where
  best_gps : Option (ℚ × ℚ × String)
  best_datetime : Option (String × String)
  best_description : Option (String × String)
deriving DecidableEq

/-- The GPS check of the scan body: if the winner lacks GPS, no source was
found yet and this loser has GPS, record it. -/
def scanStepGps (w_gps : Bool) (st : ScanState) (loserId : String) (exif : ExifInfo) :
    ScanState :=
  if !w_gps && st.best_gps.isNone && exif.has_gps then
    match exif.latitude, exif.longitude with
    | some lat, some lon => { st with best_gps := some (lat, lon, loserId) }
    | _, _ => st
  else st

/-- The datetime check of the scan body. -/
def scanStepDt (w_dt : Bool) (st : ScanState) (loserId : String) (exif : ExifInfo) :
    ScanState :=
  if !w_dt && st.best_datetime.isNone then
    match exif.date_time_original with
    | some dt => { st with best_datetime := some (dt, loserId) }
    | none => st
  else st

/-- The description check of the scan body. -/
def scanStepDesc (w_desc : Bool) (st : ScanState) (loserId : String) (exif : ExifInfo) :
    ScanState :=
  if !w_desc && st.best_description.isNone then
    match exif.description with
    | some desc => { st with best_description := some (desc, loserId) }
    | none => st
  else st

/-- One loop body of the loser scan: for each field the winner lacks and
for which no source was found yet, take this loser's value if present
(the three checks run in sequence on the mutable state, as in the Rust
body). -/
def scanStep (w_gps w_dt w_desc : Bool) (st : ScanState) (loserId : String)
    (asset : AssetResponse) : ScanState :=
  match asset.exif_info with
  | none => st
  | some exif =>
    scanStepDesc w_desc (scanStepDt w_dt (scanStepGps w_gps st loserId exif) loserId exif)
      loserId exif

/-- The early-break condition of the loser scan: every field is either
already on the winner or has a found source. -/
def scanSatisfied (w_gps w_dt w_desc : Bool) (st : ScanState) : Bool :=
  (w_gps || st.best_gps.isSome) && (w_dt || st.best_datetime.isSome) &&
    (w_desc || st.best_description.isSome)

/-- The loser scan loop of `consolidate_metadata`. Besides the final state
it returns the trace of loser ids for which `get_asset` was called (a
failed fetch is `continue`d past, skipping the break check — which is
equivalent, since the state is unchanged). -/
def scanLosers (env : Env) (w_gps w_dt w_desc : Bool) :
    List ScoredAsset → ScanState → ScanState × List String
  | [], st => (st, [])
  | loser :: rest, st =>
    match env.getAsset loser.asset_id with
    | .error _ =>
      let r := scanLosers env w_gps w_dt w_desc rest st
      (r.1, loser.asset_id :: r.2)
    | .ok asset =>
      let st1 := scanStep w_gps w_dt w_desc st loser.asset_id asset
      if scanSatisfied w_gps w_dt w_desc st1 then (st1, [loser.asset_id])
      else
        let r := scanLosers env w_gps w_dt w_desc rest st1
        (r.1, loser.asset_id :: r.2)

/-- `winner_has_gps` as computed by `consolidate_metadata`. -/
def winnerHasGps (w : AssetResponse) : Bool :=
  (w.exif_info.map fun e => e.has_gps).getD false

/-- `winner_has_datetime`. -/
def winnerHasDatetime (w : AssetResponse) : Bool :=
  (w.exif_info.bind fun e => e.date_time_original).isSome

/-- `winner_has_description`. -/
def winnerHasDescription (w : AssetResponse) : Bool :=
  (w.exif_info.bind fun e => e.description).isSome

/-- `Executor::consolidate_metadata`, returning the optional result and the
trace of loser ids fetched during the scan. -/
def consolidate_metadata (env : Env) (analysis : DuplicateAnalysis) :
    Option ConsolidationResult × List String :=
  match env.getAsset analysis.winner.asset_id with
  | .error _ => (none, [])
  | .ok winner_asset =>
    let winner_has_gps := winnerHasGps winner_asset
    let winner_has_datetime := winnerHasDatetime winner_asset
    let winner_has_description := winnerHasDescription winner_asset
    if winner_has_gps && winner_has_datetime && winner_has_description then (none, [])
    else
      let r := scanLosers env winner_has_gps winner_has_datetime winner_has_description
        analysis.losers ⟨none, none, none⟩
      let st := r.1
      if st.best_gps.isNone && st.best_datetime.isNone && st.best_description.isNone then
        (none, r.2)
      else
        let source_asset_id :=
          (st.best_gps.map fun b => b.2.2).orElse fun _ =>
            (st.best_datetime.map fun b => b.2).orElse fun _ =>
              st.best_description.map fun b => b.2
        match env.updateMetadata analysis.winner.asset_id with
        | .ok _ =>
          (some { gps_transferred := st.best_gps.isSome
                  datetime_transferred := st.best_datetime.isSome
                  description_transferred := st.best_description.isSome
                  source_asset_id }, r.2)
        | .error _ => (none, r.2)

/-! ## Album transfer retry loop (`Executor::transfer_single_album`)

Time is modelled in milliseconds: attempts are instantaneous and each
sleep advances the clock by exactly its duration. The Rust loop is
a `loop` whose iteration count is bounded by the shrinking remaining
budget (every sleep is at least 1 ms); here it is written with a fuel
argument that decreases by one per iteration, and
`transferLoop_fuel_irrel` proves the result independent of the fuel
whenever the fuel exceeds the remaining budget, so
`transfer_single_album` (fuel `60001`) computes the limit of the Rust
loop exactly. -/

def MAX_DURATION_MS : Nat := 60000
def INITIAL_DELAY_MS : Nat := 250

/-- The retry loop of `transfer_single_album`. Arguments: fuel, attempt
index, current delay, elapsed ms. Returns (success, final elapsed ms,
list of sleeps performed in order). -/
def transferLoop (attemptOk : Nat → Bool) : Nat → Nat → Nat → Nat → Bool × Nat × List Nat
  | 0, _, _, elapsed => (false, elapsed, [])
  | fuel + 1, n, delay, elapsed =>
    if attemptOk n then (true, elapsed, [])
    else if MAX_DURATION_MS ≤ elapsed then (false, elapsed, [])
    else
      let remaining := MAX_DURATION_MS - elapsed
      let sleep_duration := min delay remaining
      if sleep_duration = 0 then (false, elapsed, [])
      else
        let r := transferLoop attemptOk fuel (n + 1) (delay * 2) (elapsed + sleep_duration)
        (r.1, r.2.1, sleep_duration :: r.2.2)

/-- `Executor::transfer_single_album`, as a function of the per-attempt
outcome oracle: start at attempt 0, delay 250 ms, elapsed 0. -/
def transfer_single_album (attemptOk : Nat → Bool) : Bool × Nat × List Nat :=
  transferLoop attemptOk (MAX_DURATION_MS + 1) 0 INITIAL_DELAY_MS 0

/-! ## Album transfer (`Executor::transfer_albums`) -/

/-- `HashMap::entry(id).or_insert_with(|| album)`: keep the first album
seen for each id. -/
def insertAlbum (acc : List AlbumResponse) (album : AlbumResponse) : List AlbumResponse :=
  if acc.any (fun a => a.id == album.id) then acc else acc ++ [album]

/-- The lookup loop of `transfer_albums`: per loser, fetch its albums and
union them by id; a failed lookup sets the failure flag and records an
error message. Returns (albums in first-insertion order, had_failures so
far, error messages so far). Rust iterates the `HashMap` in unspecified
order; the model fixes first-insertion order, which no claim depends on. -/
def collectAlbumsGo (env : Env) (acc : List AlbumResponse) (failed : Bool)
    (msgs : List String) : List ScoredAsset → List AlbumResponse × Bool × List String
  | [] => (acc, failed, msgs)
  | loser :: rest =>
    match env.getAlbumsForAsset loser.asset_id with
    | .ok albums => collectAlbumsGo env (albums.foldl insertAlbum acc) failed msgs rest
    | .error e =>
      collectAlbumsGo env acc true
        (msgs ++ ["Failed to get albums for " ++ loser.asset_id ++ ": " ++ e]) rest

/-- The per-album transfer loop of `transfer_albums`; the accumulator is
(transferred ids, transferred names, had_failures, error messages). The
Rust message quotes the album name; the quotes are dropped here. -/
def transferAlbumsStep (env : Env) (acc : List String × List String × Bool × List String)
    (album : AlbumResponse) : List String × List String × Bool × List String :=
  if (transfer_single_album (env.transferAttempt album.id)).1 then
    (acc.1 ++ [album.id], acc.2.1 ++ [album.album_name], acc.2.2.1, acc.2.2.2)
  else
    (acc.1, acc.2.1, true,
      acc.2.2.2 ++ ["Failed to transfer album " ++ album.album_name ++ " after retry"])

/-- `Executor::transfer_albums`. -/
def transfer_albums (env : Env) (analysis : DuplicateAnalysis) : AlbumTransferResult :=
  let collected := collectAlbumsGo env [] false [] analysis.losers
  let albums_to_transfer := collected.1
  if albums_to_transfer.isEmpty then
    { albums_transferred := 0, album_ids := [], album_names := []
      had_failures := false, error_message := none }
  else
    let acc := albums_to_transfer.foldl (transferAlbumsStep env)
      ([], [], collected.2.1, collected.2.2)
    { albums_transferred := acc.1.length
      album_ids := acc.1
      album_names := acc.2.1
      had_failures := acc.2.2.1
      error_message :=
        if acc.2.2.2.isEmpty then none else some (String.intercalate "; " acc.2.2.2) }

/-! ## Download, delete and the per-group pipeline (`Executor::execute_group`) -/

/-- `Executor::download_loser`: one rate-gated download to
`backup_dir/{assetId}_{filename}`. -/
def download_loser (env : Env) (cfg : ExecutionConfig) (asset_id filename : String) :
    OperationResult :=
  let safe_filename := asset_id ++ "_" ++ filename
  let path := cfg.backup_dir ++ "/" ++ safe_filename
  match env.download asset_id with
  | .ok _ => .Success asset_id (some path)
  | .error e => .Failed asset_id e

/-- The `downloaded_ids` collection of `execute_group`: ids of the
`Success` download results. -/
def successIds (results : List OperationResult) : List String :=
  results.filterMap fun r =>
    match r with
    | .Success id _ => some id
    | _ => none

/-- `execute_group`'s observable behaviour: the produced `GroupResult`
together with the download calls issued (loser ids, in order) and the one
`deleteAssets` call, if made, with its (ids, force) payload. -/
structure GroupExec where
  result : GroupResult
  downloadCalls : List String
  deleteCall : Option (List String × Bool)
deriving DecidableEq

/-- `Executor::execute_group`: consolidate, optionally transfer albums,
short-circuit when a transfer had failures, otherwise download every loser
and batch-delete exactly the successfully downloaded ids. -/
def execute_group (env : Env) (cfg : ExecutionConfig) (analysis : DuplicateAnalysis) :
    GroupExec :=
  let consolidation_result := (consolidate_metadata env analysis).1
  let album_transfer_result :=
    if cfg.preserve_albums then some (transfer_albums env analysis) else none
  let should_skip_deletion :=
    match album_transfer_result with
    | some transfer => transfer.had_failures
    | none => false
  if should_skip_deletion then
    { result :=
        { duplicate_id := analysis.duplicate_id
          winner_id := analysis.winner.asset_id
          consolidation_result, album_transfer_result
          download_results := []
          delete_result := some (.Skipped analysis.duplicate_id
            "Album transfer failed after retry, skipping deletion to preserve album integrity") }
      downloadCalls := []
      deleteCall := none }
  else
    let download_results := analysis.losers.map fun l =>
      download_loser env cfg l.asset_id l.filename
    let downloaded_ids := successIds download_results
    let deleteStep : Option OperationResult × Option (List String × Bool) :=
      if downloaded_ids.isEmpty then
        (some (.Skipped analysis.duplicate_id "No assets were successfully downloaded"), none)
      else
        match env.deleteAssets downloaded_ids cfg.force_delete with
        | .ok _ =>
          (some (.Success analysis.duplicate_id none), some (downloaded_ids, cfg.force_delete))
        | .error e =>
          (some (.Failed analysis.duplicate_id e), some (downloaded_ids, cfg.force_delete))
    { result :=
        { duplicate_id := analysis.duplicate_id
          winner_id := analysis.winner.asset_id
          consolidation_result, album_transfer_result
          download_results
          delete_result := deleteStep.1 }
      downloadCalls := analysis.losers.map fun l => l.asset_id
      deleteCall := deleteStep.2 }

/-! ## Basic facts about `from_group` -/

/-- Destructuring a successful analysis: the sorted scored list splits as
winner followed by losers, and the remaining fields are as computed. -/
theorem from_group_some (g : DuplicateGroup) (A : DuplicateAnalysis)
    (h : DuplicateAnalysis.from_group g = some A) :
    (g.assets.map scoreAsset).insertionSort rank = A.winner :: A.losers ∧
    A.duplicate_id = g.duplicate_id ∧
    A.conflicts = detect_conflicts g.assets ∧
    A.needs_review = !(detect_conflicts g.assets).isEmpty := by
  unfold DuplicateAnalysis.from_group at h
  cases hs : (g.assets.map scoreAsset).insertionSort rank with
  | nil => rw [hs] at h; simp at h
  | cons w ls =>
    rw [hs] at h
    simp only [Option.some.injEq] at h
    subst h
    exact ⟨rfl, rfl, rfl, rfl⟩

theorem from_group_none_iff (g : DuplicateGroup) :
    DuplicateAnalysis.from_group g = none ↔ g.assets = [] := by
  unfold DuplicateAnalysis.from_group
  cases hs : (g.assets.map scoreAsset).insertionSort rank with
  | nil =>
    have hlen := (List.perm_insertionSort rank (g.assets.map scoreAsset)).length_eq
    rw [hs] at hlen
    simp only [List.length_nil, List.length_map] at hlen
    simp [List.length_eq_zero.mp hlen.symm]
  | cons w ls =>
    have hne : g.assets ≠ [] := by
      intro he
      have hlen := (List.perm_insertionSort rank (g.assets.map scoreAsset)).length_eq
      rw [hs, he] at hlen
      simp at hlen
    simp [hne]

/-! ## Singleton groups produce no conflicts -/

theorem has_gps_conflict_short (l : List (ℚ × ℚ)) (h : l.length ≤ 1) :
    has_gps_conflict l = false := by
  match l, h with
  | [], _ => rfl
  | [p], _ => simp [has_gps_conflict]

theorem find_unique_go_length_le (seen : List String) (values : List String) :
    (find_unique_go seen values).length ≤ values.length := by
  induction values generalizing seen with
  | nil => simp [find_unique_go]
  | cons v vs ih =>
    simp only [find_unique_go]
    split
    · simpa using Nat.succ_le_succ (ih _)
    · exact Nat.le_succ_of_le (ih _)

theorem find_unique_strings_short (values : List String) (h : values.length ≤ 1) :
    find_unique_strings values = none := by
  unfold find_unique_strings
  split
  · rfl
  · have := find_unique_go_length_le [] values
    have : (find_unique_go [] values).length ≤ 1 := this.trans h
    simp [Nat.not_lt.mpr this]

theorem length_exif_collect_le {β : Type} (assets : List AssetResponse)
    (f : ExifInfo → Option β) :
    ((assets.filterMap fun a => a.exif_info).filterMap f).length ≤ assets.length :=
  (List.length_filterMap_le _ _).trans (List.length_filterMap_le _ _)

theorem detect_conflicts_singleton (a : AssetResponse) : detect_conflicts [a] = [] := by
  unfold detect_conflicts
  have h1 : has_gps_conflict (gpsValuesOf [a]) = false :=
    has_gps_conflict_short _ (length_exif_collect_le [a] _)
  have h2 : find_unique_strings (timezoneValuesOf [a]) = none :=
    find_unique_strings_short _ (length_exif_collect_le [a] _)
  have h3 : find_unique_strings (cameraValuesOf [a]) = none :=
    find_unique_strings_short _ (length_exif_collect_le [a] _)
  have h4 : find_unique_strings (captureTimeValuesOf [a]) = none :=
    find_unique_strings_short _ (length_exif_collect_le [a] _)
  simp [h1, h2, h3, h4]

/-! ## Concrete fixtures used by witnesses -/

/-- A fully populated EXIF block. -/
def exifFull : ExifInfo :=
  { latitude := some (515074 / 10000)
    longitude := some (-1278 / 10000)
    city := some "London"
    country := some "UK"
    time_zone := some "Europe/London"
    date_time_original := some "2020-01-01T00:00:00Z"
    make := some "Canon"
    model := some "EOS"
    lens_model := some "EF50"
    file_size_in_byte := some 1000
    description := some "a photo" }

def assetA : AssetResponse :=
  { id := "a", original_file_name := "a.jpg", exif_info := some exifFull }

def assetB : AssetResponse :=
  { id := "b", original_file_name := "b.jpg", exif_info := none }

def groupAB : DuplicateGroup := { duplicate_id := "g1", assets := [assetA, assetB] }

/-- The analysis `from_group` computes for `groupAB`. -/
def analysisAB : DuplicateAnalysis :=
  { duplicate_id := "g1"
    winner := scoreAsset assetA
    losers := [scoreAsset assetB]
    conflicts := []
    needs_review := false }

/-! ## C10 -/

/-- C10: `DuplicateAnalysis::from_group` is only total for non-empty
groups: on an empty asset list it panics (`scored.remove(0)` on an empty
vector), modelled as `none`; on a non-empty group it returns normally with
exactly one winner and `assets.len() - 1` losers. -/
theorem from_group_partiality (g : DuplicateGroup) :
    (DuplicateAnalysis.from_group g = none ↔ g.assets = []) ∧
    ∀ A, DuplicateAnalysis.from_group g = some A →
      A.losers.length + 1 = g.assets.length := by
  refine ⟨from_group_none_iff g, fun A h => ?_⟩
  obtain ⟨hs, -, -, -⟩ := from_group_some g A h
  have hlen := (List.perm_insertionSort rank (g.assets.map scoreAsset)).length_eq
  rw [hs] at hlen
  simpa [Nat.add_comm] using hlen

theorem from_group_partiality_witness :
    DuplicateAnalysis.from_group groupAB = some analysisAB ∧
    analysisAB.losers.length + 1 = groupAB.assets.length :=
  ⟨by decide, (from_group_partiality groupAB).2 analysisAB (by decide)⟩

/-! ## Winner selection: keys, stability -/

/-- The sort key the comparator maximizes: score total, then file size
(`unwrap_or(0)`). -/
def key (a : ScoredAsset) : Nat × Nat := (a.score.total, sizeOr0 a)

/-- Lexicographic order on sort keys. -/
def keyLe (p q : Nat × Nat) : Prop := p.1 < q.1 ∨ (p.1 = q.1 ∧ p.2 ≤ q.2)

/-- Strict lexicographic order on sort keys. -/
def keyLt (p q : Nat × Nat) : Prop := p.1 < q.1 ∨ (p.1 = q.1 ∧ p.2 < q.2)

theorem rank_iff_keyLe (a b : ScoredAsset) : rank a b ↔ keyLe (key b) (key a) :=
  Iff.rfl

theorem keyLe_refl (p : Nat × Nat) : keyLe p p := by unfold keyLe; omega

theorem keyLe_trans {p q r : Nat × Nat} (h1 : keyLe p q) (h2 : keyLe q r) : keyLe p r := by
  unfold keyLe at *; omega

theorem keyLt_of_not_keyLe {p q : Nat × Nat} (h : ¬ keyLe p q) : keyLt q p := by
  unfold keyLe at h; unfold keyLt; omega

theorem keyLe_of_keyLt {p q : Nat × Nat} (h : keyLt p q) : keyLe p q := by
  unfold keyLt at h; unfold keyLe; omega

/-- The head of the stable sort, computed directly: scan the list once,
keeping the earlier element on ties (`rank x w` holds on a tie). -/
def pickWinner : List ScoredAsset → Option ScoredAsset
  | [] => none
  | x :: xs =>
    match pickWinner xs with
    | none => some x
    | some w => if rank x w then some x else some w

theorem pickWinner_eq_none_iff (l : List ScoredAsset) : pickWinner l = none ↔ l = [] := by
  cases l with
  | nil => simp [pickWinner]
  | cons x xs =>
    simp only [pickWinner]
    split <;> (try split) <;> simp

theorem insertionSort_head_eq_pickWinner (l : List ScoredAsset) :
    (l.insertionSort rank).head? = pickWinner l := by
  induction l with
  | nil => rfl
  | cons x xs ih =>
    simp only [List.insertionSort]
    cases hs : xs.insertionSort rank with
    | nil =>
      rw [hs] at ih
      simp only [List.head?_nil] at ih
      simp [pickWinner, ← ih, List.orderedInsert]
    | cons y ys =>
      rw [hs] at ih
      simp only [List.head?_cons] at ih
      simp only [pickWinner, ← ih]
      simp only [List.orderedInsert]
      by_cases h : rank x y <;> simp [h]

/-- The scan head is the first input element with lexicographically
maximal key: it dominates every element, and everything strictly before
it in input order has a strictly smaller key. -/
theorem pickWinner_first_max (l : List ScoredAsset) (w : ScoredAsset)
    (h : pickWinner l = some w) :
    (∀ a ∈ l, keyLe (key a) (key w)) ∧
    ∃ l1 l2, l = l1 ++ w :: l2 ∧ ∀ a ∈ l1, keyLt (key a) (key w) := by
  induction l generalizing w with
  | nil => cases h
  | cons x xs ih =>
    simp only [pickWinner] at h
    cases hx : pickWinner xs with
    | none =>
      rw [hx] at h
      simp only [Option.some.injEq] at h
      subst h
      obtain rfl : xs = [] := (pickWinner_eq_none_iff xs).mp hx
      refine ⟨?_, [], [], rfl, by simp⟩
      intro a ha
      simp only [List.mem_singleton] at ha
      subst ha
      exact keyLe_refl _
    | some w2 =>
      rw [hx] at h
      obtain ⟨hmax, l1, l2, hsplit, hlt⟩ := ih w2 hx
      by_cases hr : rank x w2
      · replace h : x = w := by simpa [hr] using h
        subst h
        have hw2x : keyLe (key w2) (key x) := (rank_iff_keyLe x w2).mp hr
        refine ⟨?_, [], xs, rfl, by simp⟩
        intro a ha
        rcases List.mem_cons.mp ha with rfl | ha
        · exact keyLe_refl _
        · exact keyLe_trans (hmax a ha) hw2x
      · replace h : w2 = w := by simpa [hr] using h
        subst h
        have hxw : keyLt (key x) (key w2) :=
          keyLt_of_not_keyLe (fun hc => hr ((rank_iff_keyLe x w2).mpr hc))
        refine ⟨?_, x :: l1, l2, by rw [hsplit]; rfl, ?_⟩
        · intro a ha
          rcases List.mem_cons.mp ha with rfl | ha
          · exact keyLe_of_keyLt hxw
          · exact hmax a ha
        · intro a ha
          rcases List.mem_cons.mp ha with rfl | ha
          · exact hxw
          · exact hlt a ha

/-! ## C3 -/

/-- C3: for a non-empty group the winner is the asset ranked first by the
stable sort (score total descending, then file size descending, remaining
ties in input order): its score total dominates every loser, winner and
losers together are a permutation of the scored assets, the winner's key
(total, size) is maximal, and every asset strictly before the winner in
input order has a strictly smaller key. -/
theorem winner_selection (g : DuplicateGroup) (A : DuplicateAnalysis)
    (h : DuplicateAnalysis.from_group g = some A) :
    (∀ l ∈ A.losers, l.score.total ≤ A.winner.score.total) ∧
    (A.winner :: A.losers).Perm (g.assets.map scoreAsset) ∧
    (∀ a ∈ g.assets.map scoreAsset, keyLe (key a) (key A.winner)) ∧
    ∃ l1 l2, g.assets.map scoreAsset = l1 ++ A.winner :: l2 ∧
      ∀ a ∈ l1, keyLt (key a) (key A.winner) := by
  obtain ⟨hs, -, -, -⟩ := from_group_some g A h
  have hperm := List.perm_insertionSort rank (g.assets.map scoreAsset)
  rw [hs] at hperm
  have hw : pickWinner (g.assets.map scoreAsset) = some A.winner := by
    rw [← insertionSort_head_eq_pickWinner, hs, List.head?_cons]
  obtain ⟨hmax, l1, l2, hsplit, hlt⟩ := pickWinner_first_max _ _ hw
  refine ⟨?_, hperm, hmax, l1, l2, hsplit, hlt⟩
  intro l hl
  have hmem : l ∈ g.assets.map scoreAsset :=
    hperm.mem_iff.mp (List.mem_cons_of_mem _ hl)
  have := hmax l hmem
  unfold keyLe key at this
  simp only at this
  omega

theorem winner_selection_witness :
    (∀ l ∈ analysisAB.losers, l.score.total ≤ analysisAB.winner.score.total) ∧
    (analysisAB.winner :: analysisAB.losers).Perm (groupAB.assets.map scoreAsset) ∧
    (∀ a ∈ groupAB.assets.map scoreAsset, keyLe (key a) (key analysisAB.winner)) ∧
    ∃ l1 l2, groupAB.assets.map scoreAsset = l1 ++ analysisAB.winner :: l2 ∧
      ∀ a ∈ l1, keyLt (key a) (key analysisAB.winner) :=
  winner_selection groupAB analysisAB (by decide)

/-! ## C4 -/

/-- C4: `needs_review` is true iff the conflicts list is non-empty, the
conflicts are computed over the original (unsorted) asset list, and a
single-asset group has `needs_review = false` and no losers. -/
theorem needs_review_iff_conflicts (g : DuplicateGroup) (A : DuplicateAnalysis)
    (h : DuplicateAnalysis.from_group g = some A) :
    (A.needs_review = true ↔ A.conflicts ≠ []) ∧
    A.conflicts = detect_conflicts g.assets ∧
    (∀ a, g.assets = [a] → A.needs_review = false ∧ A.losers = []) := by
  obtain ⟨hs, -, hc, hn⟩ := from_group_some g A h
  refine ⟨?_, hc, fun a ha => ?_⟩
  · rw [hn, hc]
    cases detect_conflicts g.assets <;> simp
  · constructor
    · rw [hn, ha, detect_conflicts_singleton]
      rfl
    · have hlen := (List.perm_insertionSort rank (g.assets.map scoreAsset)).length_eq
      rw [hs, ha] at hlen
      simp only [List.length_cons, List.length_map, List.length_nil] at hlen
      exact List.length_eq_zero.mp (by omega)

theorem needs_review_iff_conflicts_witness :
    (analysisAB.needs_review = true ↔ analysisAB.conflicts ≠ []) ∧
    analysisAB.conflicts = detect_conflicts groupAB.assets ∧
    (∀ a, groupAB.assets = [a] →
      analysisAB.needs_review = false ∧ analysisAB.losers = []) :=
  needs_review_iff_conflicts groupAB analysisAB (by decide)

/-! ## String-conflict characterization (for C8) -/

/-- First-seen deduplication: keep the first occurrence of each value,
dropping values already in `seen`. -/
def firstSeenDedupGo (seen : List String) : List String → List String
  | [] => []
  | x :: xs =>
    if seen.contains x then firstSeenDedupGo seen xs
    else x :: firstSeenDedupGo (seen ++ [x]) xs

def firstSeenDedup (l : List String) : List String := firstSeenDedupGo [] l

/-- Claim side: the distinct non-empty normalized (trim + case-fold)
values, in first-seen order. -/
def specDistinctNormalized (values : List String) : List String :=
  firstSeenDedup ((values.map normalizeStr).filter fun s => !s.isEmpty)

/-- Claim side: for each distinct normalized value in first-seen order,
the trimmed form of the first original value normalizing to it. -/
def specUniqueStrings (values : List String) : List String :=
  (specDistinctNormalized values).filterMap fun n =>
    (values.find? fun v => normalizeStr v == n).map fun v => strTrim v

theorem mem_firstSeenDedupGo (l : List String) : ∀ seen m, m ∈ firstSeenDedupGo seen l →
    m ∈ l ∧ m ∉ seen := by
  induction l with
  | nil => intro seen m h; cases h
  | cons x xs ih =>
    intro seen m h
    simp only [firstSeenDedupGo] at h
    split at h
    · rename_i hc
      obtain ⟨h1, h2⟩ := ih seen m h
      exact ⟨List.mem_cons_of_mem _ h1, h2⟩
    · rename_i hc
      rcases List.mem_cons.mp h with rfl | h
      · exact ⟨List.mem_cons_self _ _, by simpa using hc⟩
      · obtain ⟨h1, h2⟩ := ih (seen ++ [x]) m h
        refine ⟨List.mem_cons_of_mem _ h1, fun hm => h2 ?_⟩
        exact List.mem_append_left _ hm

theorem length_filterMap_of_isSome {α β : Type} (f : α → Option β) (l : List α)
    (h : ∀ a ∈ l, (f a).isSome) : (l.filterMap f).length = l.length := by
  induction l with
  | nil => rfl
  | cons x xs ih =>
    rcases hx : f x with _ | b
    · exact absurd (h x (List.mem_cons_self x xs)) (by simp [hx])
    · simp [List.filterMap_cons, hx, ih fun a ha => h a (List.mem_cons_of_mem _ ha)]

/-- Dropping the head of the searched list in the representative lookup,
when no listed normalized value matches the head. -/
theorem filterMap_find_skip_head (v : String) (vs : List String) (L : List String)
    (hL : ∀ n ∈ L, ¬ normalizeStr v = n) :
    (L.filterMap fun n => ((v :: vs).find? fun x => normalizeStr x == n).map fun x => strTrim x) =
      L.filterMap fun n => (vs.find? fun x => normalizeStr x == n).map fun x => strTrim x :=
  List.filterMap_congr fun n hn => by
    rw [List.find?_cons_of_neg _ (by simp [hL n hn])]

/-- The loop of `find_unique_strings` computes exactly the spec-side
representatives: for each distinct non-empty normalized value not yet in
`seen`, the trimmed first original. -/
theorem find_unique_go_eq_spec (values : List String) : ∀ seen,
    find_unique_go seen values =
      (firstSeenDedupGo seen ((values.map normalizeStr).filter fun s => !s.isEmpty)).filterMap
        fun n => (values.find? fun v => normalizeStr v == n).map fun v => strTrim v := by
  induction values with
  | nil => intro seen; rfl
  | cons v vs ih =>
    intro seen
    simp only [find_unique_go, List.map_cons, List.filter_cons]
    by_cases he : (normalizeStr v).isEmpty
    · have he' : normalizeStr v = "" := by simpa [String.isEmpty_iff] using he
      have hcondL : (!(normalizeStr v).isEmpty && !seen.contains (normalizeStr v)) = false := by
        simp [he]
      have hcondR : (!(normalizeStr v).isEmpty) = false := by simp [he]
      rw [hcondL, if_neg Bool.false_ne_true, hcondR, if_neg Bool.false_ne_true]
      rw [filterMap_find_skip_head v vs _ ?hne1]
      · exact ih seen
      case hne1 =>
        intro n hn hcontra
        have h1 := (mem_firstSeenDedupGo _ _ _ hn).1
        have h2 := List.of_mem_filter h1
        rw [← hcontra, he'] at h2
        exact absurd h2 (by decide)
    · have hcondR : (!(normalizeStr v).isEmpty) = true := by simp [he]
      by_cases hc : seen.contains (normalizeStr v)
      · have hcondL : (!(normalizeStr v).isEmpty && !seen.contains (normalizeStr v)) = false := by
          have hmem : normalizeStr v ∈ seen := by simpa using hc
          simp [hmem]
        rw [hcondL, if_neg Bool.false_ne_true, hcondR, if_pos rfl]
        simp only [firstSeenDedupGo]
        rw [if_pos hc]
        rw [filterMap_find_skip_head v vs _ ?hne2]
        · exact ih seen
        case hne2 =>
          intro n hn hcontra
          have h2 := (mem_firstSeenDedupGo _ _ _ hn).2
          rw [← hcontra] at h2
          exact h2 (by simpa using hc)
      · have hcondL : (!(normalizeStr v).isEmpty && !seen.contains (normalizeStr v)) = true := by
          simp [he, hc]
          simpa using hc
        rw [hcondL, if_pos rfl, hcondR, if_pos rfl]
        simp only [firstSeenDedupGo]
        rw [if_neg hc]
        simp only [List.filterMap_cons]
        rw [List.find?_cons_of_pos _ (by simp)]
        simp only [Option.map_some']
        rw [filterMap_find_skip_head v vs _ ?hne3]
        · rw [ih (seen ++ [normalizeStr v])]
        case hne3 =>
          intro n hn hcontra
          have h2 := (mem_firstSeenDedupGo _ _ _ hn).2
          rw [← hcontra] at h2
          exact h2 (List.mem_append_right _ (List.mem_singleton.mpr rfl))

theorem specUniqueStrings_length (values : List String) :
    (specUniqueStrings values).length = (specDistinctNormalized values).length := by
  unfold specUniqueStrings
  apply length_filterMap_of_isSome
  intro n hn
  have h1 : n ∈ (values.map normalizeStr).filter fun s => !s.isEmpty :=
    (mem_firstSeenDedupGo _ _ _ hn).1
  have h2 : n ∈ values.map normalizeStr := List.mem_of_mem_filter h1
  obtain ⟨v, hv, hvn⟩ := List.mem_map.mp h2
  have : ((values.find? fun v => normalizeStr v == n)).isSome :=
    List.find?_isSome.mpr ⟨v, hv, by simp [hvn]⟩
  simpa using this

/-- Functional characterization of `find_unique_strings`: a `some` result
iff at least two distinct non-empty normalized values exist, and the
result is the spec-side representative list. -/
theorem find_unique_strings_eq_spec (values : List String) :
    find_unique_strings values =
      if 2 ≤ (specDistinctNormalized values).length then some (specUniqueStrings values)
      else none := by
  unfold find_unique_strings
  by_cases hv : values.isEmpty
  · obtain rfl : values = [] := by simpa [List.isEmpty_iff] using hv
    simp [specDistinctNormalized, firstSeenDedup, firstSeenDedupGo]
  · rw [if_neg (by simpa using hv)]
    have hgo : find_unique_go [] values = specUniqueStrings values := find_unique_go_eq_spec values []
    rw [hgo]
    by_cases hc : 2 ≤ (specDistinctNormalized values).length
    · rw [if_pos hc, if_pos (by rw [specUniqueStrings_length]; omega)]
    · rw [if_neg hc, if_neg (by rw [specUniqueStrings_length]; omega)]

/-! ## Membership of each conflict kind in `detect_conflicts` -/

theorem timezone_mem_detect_iff (assets : List AssetResponse) (u : List String) :
    MetadataConflict.Timezone u ∈ detect_conflicts assets ↔
      find_unique_strings (timezoneValuesOf assets) = some u := by
  unfold detect_conflicts
  cases h1 : has_gps_conflict (gpsValuesOf assets) <;>
    rcases h2 : find_unique_strings (timezoneValuesOf assets) with _ | u2 <;>
      rcases h3 : find_unique_strings (cameraValuesOf assets) with _ | u3 <;>
        rcases h4 : find_unique_strings (captureTimeValuesOf assets) with _ | u4 <;>
          simp [h1, h2, h3, h4, eq_comm]

theorem camera_mem_detect_iff (assets : List AssetResponse) (u : List String) :
    MetadataConflict.CameraInfo u ∈ detect_conflicts assets ↔
      find_unique_strings (cameraValuesOf assets) = some u := by
  unfold detect_conflicts
  cases h1 : has_gps_conflict (gpsValuesOf assets) <;>
    rcases h2 : find_unique_strings (timezoneValuesOf assets) with _ | u2 <;>
      rcases h3 : find_unique_strings (cameraValuesOf assets) with _ | u3 <;>
        rcases h4 : find_unique_strings (captureTimeValuesOf assets) with _ | u4 <;>
          simp [h1, h2, h3, h4, eq_comm]

theorem capture_mem_detect_iff (assets : List AssetResponse) (u : List String) :
    MetadataConflict.CaptureTime u ∈ detect_conflicts assets ↔
      find_unique_strings (captureTimeValuesOf assets) = some u := by
  unfold detect_conflicts
  cases h1 : has_gps_conflict (gpsValuesOf assets) <;>
    rcases h2 : find_unique_strings (timezoneValuesOf assets) with _ | u2 <;>
      rcases h3 : find_unique_strings (cameraValuesOf assets) with _ | u3 <;>
        rcases h4 : find_unique_strings (captureTimeValuesOf assets) with _ | u4 <;>
          simp [h1, h2, h3, h4, eq_comm]

/-! ## C8 -/

/-- An EXIF block with no fields present. -/
def emptyExif : ExifInfo :=
  { latitude := none, longitude := none, city := none, country := none, time_zone := none,
    date_time_original := none, make := none, model := none, lens_model := none,
    file_size_in_byte := none, description := none }

/-- An asset carrying only a timezone value. -/
def tzAsset (i tz : String) : AssetResponse :=
  { id := i, original_file_name := i ++ ".jpg"
    exif_info := some { emptyExif with time_zone := some tz } }

theorem fus_exists_iff (values : List String) :
    (∃ u, find_unique_strings values = some u) ↔
      2 ≤ (specDistinctNormalized values).length := by
  rw [find_unique_strings_eq_spec]
  by_cases hc : 2 ≤ (specDistinctNormalized values).length <;> simp [hc]

theorem fus_some_eq (values : List String) (u : List String)
    (h : find_unique_strings values = some u) : u = specUniqueStrings values := by
  rw [find_unique_strings_eq_spec] at h
  by_cases hc : 2 ≤ (specDistinctNormalized values).length
  · rw [if_pos hc] at h
    exact (Option.some.injEq _ _ ▸ h).symm
  · rw [if_neg hc] at h
    cases h

/-- C8 counterexample: with collected timezone values `["  ", "UTC"]` two
distinct values remain after trimming and case-folding (`""` and `"utc"`),
so the claim requires a Timezone conflict, but `detect_conflicts` emits no
conflict at all: the code additionally drops values that are empty after
trimming. -/
theorem string_conflict_cex :
    timezoneValuesOf [tzAsset "t1" "  ", tzAsset "t2" "UTC"] = ["  ", "UTC"] ∧
    firstSeenDedup ((timezoneValuesOf [tzAsset "t1" "  ", tzAsset "t2" "UTC"]).map
      normalizeStr) = ["", "utc"] ∧
    detect_conflicts [tzAsset "t1" "  ", tzAsset "t2" "UTC"] = [] := by
  decide

/-- C8 (amended): for each string field (timezone, camera info, capture
time) a conflict is emitted iff at least two distinct *non-empty* values
remain after trimming and case-folding the collected values (a value that
is empty after trimming is excluded, like a missing field), and the
conflict carries, for each distinct normalized value in first-seen order,
the trimmed (case-preserved) form of the first original value normalizing
to it. -/
theorem string_conflicts_characterization (assets : List AssetResponse) :
    ((∃ u, MetadataConflict.Timezone u ∈ detect_conflicts assets) ↔
      2 ≤ (specDistinctNormalized (timezoneValuesOf assets)).length) ∧
    (∀ u, MetadataConflict.Timezone u ∈ detect_conflicts assets →
      u = specUniqueStrings (timezoneValuesOf assets)) ∧
    ((∃ u, MetadataConflict.CameraInfo u ∈ detect_conflicts assets) ↔
      2 ≤ (specDistinctNormalized (cameraValuesOf assets)).length) ∧
    (∀ u, MetadataConflict.CameraInfo u ∈ detect_conflicts assets →
      u = specUniqueStrings (cameraValuesOf assets)) ∧
    ((∃ u, MetadataConflict.CaptureTime u ∈ detect_conflicts assets) ↔
      2 ≤ (specDistinctNormalized (captureTimeValuesOf assets)).length) ∧
    (∀ u, MetadataConflict.CaptureTime u ∈ detect_conflicts assets →
      u = specUniqueStrings (captureTimeValuesOf assets)) := by
  refine ⟨?_, ?_, ?_, ?_, ?_, ?_⟩
  · simp only [timezone_mem_detect_iff]
    exact fus_exists_iff _
  · intro u hu
    exact fus_some_eq _ u ((timezone_mem_detect_iff assets u).mp hu)
  · simp only [camera_mem_detect_iff]
    exact fus_exists_iff _
  · intro u hu
    exact fus_some_eq _ u ((camera_mem_detect_iff assets u).mp hu)
  · simp only [capture_mem_detect_iff]
    exact fus_exists_iff _
  · intro u hu
    exact fus_some_eq _ u ((capture_mem_detect_iff assets u).mp hu)

theorem string_conflicts_characterization_witness :
    ["UTC", "CET"] =
      specUniqueStrings (timezoneValuesOf [tzAsset "t1" "UTC", tzAsset "t2" "CET"]) :=
  (string_conflicts_characterization [tzAsset "t1" "UTC", tzAsset "t2" "CET"]).2.1
    ["UTC", "CET"] (by decide)

/-! ## GPS conflict characterization (for C9) -/

theorem gpsWithin_symm (p q : ℚ × ℚ) : gpsWithin p q = gpsWithin q p := by
  unfold gpsWithin
  rw [abs_sub_comm p.1 q.1, abs_sub_comm p.2 q.2]

theorem gpsWithin_self (p : ℚ × ℚ) : gpsWithin p p = true := by
  unfold gpsWithin GPS_THRESHOLD
  norm_num

theorem has_gps_conflict_iff_not_pairwise (l : List (ℚ × ℚ)) :
    has_gps_conflict l = true ↔ ¬ l.Pairwise fun p q => gpsBeyond p q = false := by
  induction l with
  | nil => simp [has_gps_conflict]
  | cons p rest ih =>
    simp only [has_gps_conflict, Bool.or_eq_true, List.any_eq_true, ih, List.pairwise_cons,
      not_and_or]
    constructor
    · rintro (⟨q, hq, hb⟩ | h)
      · exact Or.inl fun hall => by rw [hall q hq] at hb; cases hb
      · exact Or.inr h
    · rintro (h | h)
      · left
        by_contra hall
        push_neg at hall
        exact h fun q hq => by
          have := hall q hq
          simpa [Bool.not_eq_true] using this
      · exact Or.inr h

theorem has_gps_conflict_iff (l : List (ℚ × ℚ)) :
    has_gps_conflict l = true ↔
      ∃ i j, ∃ hi : i < l.length, ∃ hj : j < l.length, i < j ∧
        gpsBeyond (l.get ⟨i, hi⟩) (l.get ⟨j, hj⟩) = true := by
  rw [has_gps_conflict_iff_not_pairwise, List.pairwise_iff_getElem]
  push_neg
  constructor
  · rintro ⟨i, j, hi, hj, hij, hb⟩
    refine ⟨i, j, hi, hj, hij, ?_⟩
    simp only [Bool.not_eq_false] at hb
    simpa [List.get_eq_getElem] using hb
  · rintro ⟨i, j, hi, hj, hij, hb⟩
    refine ⟨i, j, hi, hj, hij, ?_⟩
    simp only [List.get_eq_getElem] at hb
    simp [hb]

theorem dedupe_gps_go_split (cs : List (ℚ × ℚ)) : ∀ unique,
    ∃ t, dedupe_gps_go unique cs = unique ++ t ∧ t.Sublist cs := by
  induction cs with
  | nil => intro u; exact ⟨[], by simp [dedupe_gps_go]⟩
  | cons c cs ih =>
    intro u
    simp only [dedupe_gps_go]
    split
    · obtain ⟨t, h1, h2⟩ := ih u
      exact ⟨t, h1, h2.cons c⟩
    · obtain ⟨t, h1, h2⟩ := ih (u ++ [c])
      exact ⟨c :: t, by simpa using h1, h2.cons₂ c⟩

theorem dedupe_gps_go_covers (cs : List (ℚ × ℚ)) : ∀ unique, ∀ c ∈ cs,
    ∃ d ∈ dedupe_gps_go unique cs, gpsWithin c d = true := by
  induction cs with
  | nil => intro u c hc; cases hc
  | cons x cs ih =>
    intro u c hc
    simp only [dedupe_gps_go]
    rcases List.mem_cons.mp hc with rfl | hc
    · split
      · rename_i hany
        obtain ⟨d, hd, hw⟩ := List.any_eq_true.mp hany
        obtain ⟨t, h1, -⟩ := dedupe_gps_go_split cs u
        exact ⟨d, by rw [h1]; exact List.mem_append_left _ hd, hw⟩
      · obtain ⟨t, h1, -⟩ := dedupe_gps_go_split cs (c :: u ++ [c]).tail
        obtain ⟨t2, h2, -⟩ := dedupe_gps_go_split cs (u ++ [c])
        refine ⟨c, ?_, gpsWithin_self c⟩
        rw [h2]
        exact List.mem_append_left _ (List.mem_append_right _ (by simp))
    · split
      · exact ih u c hc
      · exact ih (u ++ [x]) c hc

theorem dedupe_gps_go_pairwise (cs : List (ℚ × ℚ)) : ∀ unique,
    unique.Pairwise (fun a b => gpsWithin a b = false) →
    (dedupe_gps_go unique cs).Pairwise fun a b => gpsWithin a b = false := by
  induction cs with
  | nil => intro u hu; simpa [dedupe_gps_go] using hu
  | cons c cs ih =>
    intro u hu
    simp only [dedupe_gps_go]
    split
    · exact ih u hu
    · rename_i hany
      apply ih
      rw [List.pairwise_append]
      refine ⟨hu, List.pairwise_singleton _ _, ?_⟩
      intro a ha b hb
      simp only [List.mem_singleton] at hb
      subst hb
      simp only [List.any_eq_true, not_exists, not_and, Bool.not_eq_true] at hany
      rw [gpsWithin_symm]
      exact hany a ha

theorem gps_mem_detect_iff (assets : List AssetResponse) (u : List (ℚ × ℚ)) :
    MetadataConflict.Gps u ∈ detect_conflicts assets ↔
      has_gps_conflict (gpsValuesOf assets) = true ∧ u = dedupe_gps (gpsValuesOf assets) := by
  unfold detect_conflicts
  cases h1 : has_gps_conflict (gpsValuesOf assets) <;>
    rcases h2 : find_unique_strings (timezoneValuesOf assets) with _ | u2 <;>
      rcases h3 : find_unique_strings (cameraValuesOf assets) with _ | u3 <;>
        rcases h4 : find_unique_strings (captureTimeValuesOf assets) with _ | u4 <;>
          simp [h1, h2, h3, h4, eq_comm]

/-! ## C9 -/

/-- An asset carrying only GPS coordinates. -/
def gpsAsset (i : String) (lat lon : ℚ) : AssetResponse :=
  { id := i, original_file_name := i ++ ".jpg"
    exif_info := some { emptyExif with latitude := some lat, longitude := some lon } }

/-- C9: a Gps conflict is emitted iff some pair of the collected (lat,
lon) points differs by more than 0.0001 degrees in latitude or longitude;
the carried value list is the threshold-deduplication of the collected
points: a subsequence of them in first-seen order that covers every
collected point to within the threshold and has no two entries within
threshold of each other (so two points within 0.0001 degrees on both axes
never contribute two entries). -/
theorem gps_conflict_characterization (assets : List AssetResponse) :
    ((∃ u, MetadataConflict.Gps u ∈ detect_conflicts assets) ↔
      ∃ i j, ∃ hi : i < (gpsValuesOf assets).length, ∃ hj : j < (gpsValuesOf assets).length,
        i < j ∧ gpsBeyond ((gpsValuesOf assets).get ⟨i, hi⟩)
          ((gpsValuesOf assets).get ⟨j, hj⟩) = true) ∧
    ∀ u, MetadataConflict.Gps u ∈ detect_conflicts assets →
      u = dedupe_gps (gpsValuesOf assets) ∧
      u.Sublist (gpsValuesOf assets) ∧
      (∀ c ∈ gpsValuesOf assets, ∃ d ∈ u, gpsWithin c d = true) ∧
      u.Pairwise fun a b => gpsWithin a b = false := by
  constructor
  · rw [← has_gps_conflict_iff]
    constructor
    · rintro ⟨u, hu⟩
      exact ((gps_mem_detect_iff assets u).mp hu).1
    · intro h
      exact ⟨_, (gps_mem_detect_iff assets _).mpr ⟨h, rfl⟩⟩
  · intro u hu
    obtain ⟨-, rfl⟩ := (gps_mem_detect_iff assets u).mp hu
    have hsplit := dedupe_gps_go_split (gpsValuesOf assets) []
    obtain ⟨t, h1, h2⟩ := hsplit
    refine ⟨rfl, ?_, ?_, ?_⟩
    · unfold dedupe_gps
      rw [h1]
      simpa using h2
    · intro c hc
      exact dedupe_gps_go_covers _ [] c hc
    · exact dedupe_gps_go_pairwise _ [] (List.Pairwise.nil)

theorem gps_conflict_characterization_witness :
    [((0 : ℚ), (0 : ℚ)), ((1 : ℚ), (1 : ℚ))] =
        dedupe_gps (gpsValuesOf [gpsAsset "p1" 0 0, gpsAsset "p2" 1 1]) ∧
      [((0 : ℚ), (0 : ℚ)), ((1 : ℚ), (1 : ℚ))].Sublist
        (gpsValuesOf [gpsAsset "p1" 0 0, gpsAsset "p2" 1 1]) ∧
      (∀ c ∈ gpsValuesOf [gpsAsset "p1" 0 0, gpsAsset "p2" 1 1],
        ∃ d ∈ [((0 : ℚ), (0 : ℚ)), ((1 : ℚ), (1 : ℚ))], gpsWithin c d = true) ∧
      [((0 : ℚ), (0 : ℚ)), ((1 : ℚ), (1 : ℚ))].Pairwise fun a b => gpsWithin a b = false :=
  (gps_conflict_characterization [gpsAsset "p1" 0 0, gpsAsset "p2" 1 1]).2
    [((0 : ℚ), (0 : ℚ)), ((1 : ℚ), (1 : ℚ))] (by
      have hgv : gpsValuesOf [gpsAsset "p1" 0 0, gpsAsset "p2" 1 1] =
          [((0 : ℚ), (0 : ℚ)), ((1 : ℚ), (1 : ℚ))] := rfl
      have hconf : has_gps_conflict [((0 : ℚ), (0 : ℚ)), ((1 : ℚ), (1 : ℚ))] = true := by
        norm_num [has_gps_conflict, gpsBeyond, GPS_THRESHOLD]
      have hded : dedupe_gps [((0 : ℚ), (0 : ℚ)), ((1 : ℚ), (1 : ℚ))] =
          [((0 : ℚ), (0 : ℚ)), ((1 : ℚ), (1 : ℚ))] := by
        norm_num [dedupe_gps, dedupe_gps_go, gpsWithin, GPS_THRESHOLD]
      have h : detect_conflicts [gpsAsset "p1" 0 0, gpsAsset "p2" 1 1] =
          [MetadataConflict.Gps [((0 : ℚ), (0 : ℚ)), ((1 : ℚ), (1 : ℚ))]] := by
        simp only [detect_conflicts, hgv, hconf, hded, if_true]
        rfl
      rw [h]
      exact List.mem_singleton.mpr rfl)

/-! ## Retry loop facts (for C7) -/

/-- The final elapsed time is the starting elapsed time plus the sum of
all sleeps (attempts are instantaneous in the time model). -/
theorem transferLoop_elapsed_sum (attemptOk : Nat → Bool) :
    ∀ fuel n delay elapsed,
      (transferLoop attemptOk fuel n delay elapsed).2.1 =
        elapsed + (transferLoop attemptOk fuel n delay elapsed).2.2.sum := by
  intro fuel
  induction fuel with
  | zero => intro n delay elapsed; simp [transferLoop]
  | succ fuel ih =>
    intro n delay elapsed
    simp only [transferLoop]
    split
    · simp
    · split
      · simp
      · split
        · simp
        · simp only [List.sum_cons]
          rw [ih]
          omega

/-- The elapsed clock never exceeds the budget. -/
theorem transferLoop_elapsed_le (attemptOk : Nat → Bool) :
    ∀ fuel n delay elapsed, elapsed ≤ MAX_DURATION_MS →
      (transferLoop attemptOk fuel n delay elapsed).2.1 ≤ MAX_DURATION_MS := by
  intro fuel
  induction fuel with
  | zero => intro n delay elapsed h; simpa [transferLoop] using h
  | succ fuel ih =>
    intro n delay elapsed h
    simp only [transferLoop]
    split
    · exact h
    · split
      · exact h
      · split
        · exact h
        · exact ih _ _ _ (by omega)

/-- Once the budget is consumed, no further sleep happens. -/
theorem transferLoop_sleeps_nil (attemptOk : Nat → Bool) (fuel n delay elapsed : Nat)
    (h : MAX_DURATION_MS ≤ elapsed) :
    (transferLoop attemptOk fuel n delay elapsed).2.2 = [] := by
  cases fuel with
  | zero => rfl
  | succ fuel =>
    by_cases ha : attemptOk n = true
    · simp [transferLoop, ha]
    · simp [transferLoop, ha, h]

/-- A failed attempt with the budget already consumed returns failure
immediately, without sleeping. -/
theorem transferLoop_imm_fail (attemptOk : Nat → Bool) (fuel n delay elapsed : Nat)
    (h : MAX_DURATION_MS ≤ elapsed) (hf : attemptOk n = false) :
    transferLoop attemptOk fuel n delay elapsed = (false, elapsed, []) := by
  cases fuel with
  | zero => rfl
  | succ fuel => simp [transferLoop, hf, h]

/-- Shape of the sleep sequence: the `i`-th sleep is the doubling delay
`delay * 2 ^ i`, clamped to the budget remaining after the earlier
sleeps. -/
theorem transferLoop_sleeps_shape (attemptOk : Nat → Bool) :
    ∀ fuel n delay elapsed i sleep,
      (transferLoop attemptOk fuel n delay elapsed).2.2.get? i = some sleep →
      sleep = min (delay * 2 ^ i)
        (MAX_DURATION_MS -
          (elapsed + ((transferLoop attemptOk fuel n delay elapsed).2.2.take i).sum)) := by
  intro fuel
  induction fuel with
  | zero => intro n delay elapsed i sleep h; simp [transferLoop] at h
  | succ fuel ih =>
    intro n delay elapsed i sleep h
    by_cases ha : attemptOk n = true
    · rw [show transferLoop attemptOk (fuel + 1) n delay elapsed = (true, elapsed, []) by
        simp [transferLoop, ha]] at h
      simp at h
    · by_cases hb : MAX_DURATION_MS ≤ elapsed
      · rw [transferLoop_imm_fail attemptOk (fuel + 1) n delay elapsed hb
          (Bool.not_eq_true _ ▸ ha)] at h
        simp at h
      · by_cases hc : delay = 0 ∨ MAX_DURATION_MS - elapsed = 0
        · rw [show transferLoop attemptOk (fuel + 1) n delay elapsed = (false, elapsed, []) by
            simp [transferLoop, ha, hb, hc]] at h
          simp at h
        · have heq : transferLoop attemptOk (fuel + 1) n delay elapsed =
            ((transferLoop attemptOk fuel (n + 1) (delay * 2)
                (elapsed + min delay (MAX_DURATION_MS - elapsed))).1,
              (transferLoop attemptOk fuel (n + 1) (delay * 2)
                (elapsed + min delay (MAX_DURATION_MS - elapsed))).2.1,
              min delay (MAX_DURATION_MS - elapsed) ::
                (transferLoop attemptOk fuel (n + 1) (delay * 2)
                  (elapsed + min delay (MAX_DURATION_MS - elapsed))).2.2) := by
            simp [transferLoop, ha, hb, hc]
          rw [heq] at h ⊢
          match i with
          | 0 =>
            simp only [List.get?_cons_zero, Option.some.injEq] at h
            subst h
            simp
          | i + 1 =>
            simp only [List.get?_cons_succ] at h
            simp only [List.take_succ_cons, List.sum_cons]
            rw [ih _ _ _ _ _ h]
            have hpow : delay * 2 * 2 ^ i = delay * 2 ^ (i + 1) := by ring
            rw [hpow]
            congr 1
            omega

/-- Bound on the number of sleeps: once the (doubling) delays can sum to
the remaining budget, the loop cannot sleep more often than that. -/
theorem transferLoop_len_le (attemptOk : Nat → Bool) :
    ∀ fuel k n delay elapsed, 0 < delay →
      MAX_DURATION_MS - elapsed ≤ (2 ^ k - 1) * delay →
      (transferLoop attemptOk fuel n delay elapsed).2.2.length ≤ k := by
  intro fuel
  induction fuel with
  | zero => intro k n delay elapsed _ _; simp [transferLoop]
  | succ fuel ih =>
    intro k n delay elapsed hd hk
    by_cases ha : attemptOk n = true
    · simp [transferLoop, ha]
    · by_cases hb : MAX_DURATION_MS ≤ elapsed
      · rw [transferLoop_imm_fail attemptOk (fuel + 1) n delay elapsed hb
          (Bool.not_eq_true _ ▸ ha)]
        simp
      · by_cases hc : delay = 0 ∨ MAX_DURATION_MS - elapsed = 0
        · rw [show transferLoop attemptOk (fuel + 1) n delay elapsed = (false, elapsed, []) by
            simp [transferLoop, ha, hb, hc]]
          simp
        · have heq : transferLoop attemptOk (fuel + 1) n delay elapsed =
            ((transferLoop attemptOk fuel (n + 1) (delay * 2)
                (elapsed + min delay (MAX_DURATION_MS - elapsed))).1,
              (transferLoop attemptOk fuel (n + 1) (delay * 2)
                (elapsed + min delay (MAX_DURATION_MS - elapsed))).2.1,
              min delay (MAX_DURATION_MS - elapsed) ::
                (transferLoop attemptOk fuel (n + 1) (delay * 2)
                  (elapsed + min delay (MAX_DURATION_MS - elapsed))).2.2) := by
            simp [transferLoop, ha, hb, hc]
          rw [heq]
          match k with
          | 0 =>
            exfalso
            simp only [pow_zero] at hk
            omega
          | k + 1 =>
            simp only [List.length_cons, Nat.add_le_add_iff_right]
            by_cases hcl : delay ≤ MAX_DURATION_MS - elapsed
            · rw [min_eq_left hcl]
              apply ih k _ _ _ (by omega)
              obtain ⟨m, hm⟩ : ∃ m, 2 ^ k = m + 1 :=
                ⟨2 ^ k - 1, by have := Nat.one_le_two_pow (n := k); omega⟩
              have h1 : (2 ^ (k + 1) - 1) * delay = 2 * ((2 ^ k - 1) * delay) + delay := by
                rw [pow_succ, hm]
                have h2 : (m + 1) * 2 - 1 = 2 * m + 1 := by omega
                rw [h2]
                have h3 : m + 1 - 1 = m := by omega
                rw [h3]
                ring
              rw [h1] at hk
              have h4 : (2 ^ k - 1) * (delay * 2) = 2 * ((2 ^ k - 1) * delay) := by ring
              rw [h4]
              omega
            · rw [min_eq_right (by omega)]
              have hnil : (transferLoop attemptOk fuel (n + 1) (delay * 2)
                  (elapsed + (MAX_DURATION_MS - elapsed))).2.2 = [] :=
                transferLoop_sleeps_nil _ _ _ _ _ (by omega)
              simp [hnil]

/-! ## C7 -/

/-- C7: the album-transfer retry loop starts with a 250 ms delay and
doubles it on each failed attempt; with attempts instantaneous and sleeps
advancing the clock exactly, the total elapsed time equals the sum of the
sleeps and never exceeds the 60-second budget; every sleep is the doubling
delay clamped to the remaining budget (so the final sleep is clamped);
with the budget consumed a failed attempt returns failure immediately
without sleeping; and the loop terminates after at most 8 sleeps. -/
theorem transfer_retry_budget (attemptOk : Nat → Bool) :
    (transfer_single_album attemptOk).2.1 = (transfer_single_album attemptOk).2.2.sum ∧
    (transfer_single_album attemptOk).2.1 ≤ MAX_DURATION_MS ∧
    (∀ i sleep, (transfer_single_album attemptOk).2.2.get? i = some sleep →
      sleep = min (INITIAL_DELAY_MS * 2 ^ i)
        (MAX_DURATION_MS - ((transfer_single_album attemptOk).2.2.take i).sum)) ∧
    (transfer_single_album attemptOk).2.2.length ≤ 8 ∧
    (∀ fuel n delay elapsed, MAX_DURATION_MS ≤ elapsed → attemptOk n = false →
      transferLoop attemptOk fuel n delay elapsed = (false, elapsed, [])) := by
  refine ⟨?_, ?_, ?_, ?_, ?_⟩
  · simpa using
      transferLoop_elapsed_sum attemptOk (MAX_DURATION_MS + 1) 0 INITIAL_DELAY_MS 0
  · exact transferLoop_elapsed_le attemptOk (MAX_DURATION_MS + 1) 0 INITIAL_DELAY_MS 0
      (Nat.zero_le _)
  · intro i sleep h
    simpa using
      transferLoop_sleeps_shape attemptOk (MAX_DURATION_MS + 1) 0 INITIAL_DELAY_MS 0 i sleep h
  · apply transferLoop_len_le attemptOk (MAX_DURATION_MS + 1) 8 0 INITIAL_DELAY_MS 0
    · decide
    · decide
  · exact fun fuel n delay elapsed h hf =>
      transferLoop_imm_fail attemptOk fuel n delay elapsed h hf

theorem transfer_retry_budget_witness :
    (transfer_single_album (fun _ => false)).2.1 ≤ MAX_DURATION_MS ∧
    transferLoop (fun _ => false) 5 0 250 60000 = (false, 60000, []) :=
  ⟨(transfer_retry_budget (fun _ => false)).2.1,
    (transfer_retry_budget (fun _ => false)).2.2.2.2 5 0 250 60000 (by decide) rfl⟩

/-! ## Shapes of `execute_group` -/

/-- The short-circuit branch: album preservation on and a transfer
failure. -/
theorem execute_group_skip (env : Env) (cfg : ExecutionConfig) (analysis : DuplicateAnalysis)
    (hp : cfg.preserve_albums = true)
    (hf : (transfer_albums env analysis).had_failures = true) :
    execute_group env cfg analysis =
      { result :=
          { duplicate_id := analysis.duplicate_id
            winner_id := analysis.winner.asset_id
            consolidation_result := (consolidate_metadata env analysis).1
            album_transfer_result := some (transfer_albums env analysis)
            download_results := []
            delete_result := some (.Skipped analysis.duplicate_id
              "Album transfer failed after retry, skipping deletion to preserve album integrity") }
        downloadCalls := []
        deleteCall := none } := by
  unfold execute_group
  simp [hp, hf]

/-- The mainline branch: no short-circuit, downloads and the delete step
run. -/
theorem execute_group_no_skip (env : Env) (cfg : ExecutionConfig) (analysis : DuplicateAnalysis)
    (h : cfg.preserve_albums = false ∨ (transfer_albums env analysis).had_failures = false) :
    execute_group env cfg analysis =
      (let download_results := analysis.losers.map fun l =>
          download_loser env cfg l.asset_id l.filename
        let downloaded_ids := successIds download_results
        let deleteStep : Option OperationResult × Option (List String × Bool) :=
          if downloaded_ids.isEmpty then
            (some (.Skipped analysis.duplicate_id "No assets were successfully downloaded"), none)
          else
            match env.deleteAssets downloaded_ids cfg.force_delete with
            | .ok _ => (some (.Success analysis.duplicate_id none),
                some (downloaded_ids, cfg.force_delete))
            | .error e => (some (.Failed analysis.duplicate_id e),
                some (downloaded_ids, cfg.force_delete))
        { result :=
            { duplicate_id := analysis.duplicate_id
              winner_id := analysis.winner.asset_id
              consolidation_result := (consolidate_metadata env analysis).1
              album_transfer_result :=
                if cfg.preserve_albums then some (transfer_albums env analysis) else none
              download_results := download_results
              delete_result := deleteStep.1 }
          downloadCalls := analysis.losers.map fun l => l.asset_id
          deleteCall := deleteStep.2 }) := by
  unfold execute_group
  rcases h with h | h
  · simp [h]
  · cases hp : cfg.preserve_albums <;> simp [hp, h]

/-! ## C1 -/

/-- C1: the ids passed to `deleteAssets` are always among the ids whose
download result is `Success`; and when the deleting stage is reached (no
album short-circuit) with no successful download, no delete call is made
and the delete result is Skipped with reason
"No assets were successfully downloaded". -/
theorem delete_only_downloaded (env : Env) (cfg : ExecutionConfig)
    (analysis : DuplicateAnalysis) :
    (∀ ids force, (execute_group env cfg analysis).deleteCall = some (ids, force) →
      ids ⊆ successIds (execute_group env cfg analysis).result.download_results) ∧
    ((match (execute_group env cfg analysis).result.album_transfer_result with
        | some transfer => transfer.had_failures
        | none => false) = false →
      successIds (execute_group env cfg analysis).result.download_results = [] →
      (execute_group env cfg analysis).deleteCall = none ∧
      (execute_group env cfg analysis).result.delete_result =
        some (.Skipped analysis.duplicate_id "No assets were successfully downloaded")) := by
  by_cases hskip : cfg.preserve_albums = true ∧ (transfer_albums env analysis).had_failures = true
  · obtain ⟨hp, hf⟩ := hskip
    rw [execute_group_skip env cfg analysis hp hf]
    constructor
    · intro ids force hcall
      simp at hcall
    · intro hmatch
      simp [hf] at hmatch
  · have h : cfg.preserve_albums = false ∨ (transfer_albums env analysis).had_failures = false := by
      by_cases hp : cfg.preserve_albums = true
      · cases hb : (transfer_albums env analysis).had_failures with
        | false => exact Or.inr rfl
        | true => exact absurd ⟨hp, hb⟩ hskip
      · cases hp2 : cfg.preserve_albums with
        | false => exact Or.inl rfl
        | true => exact absurd hp2 hp
    rw [execute_group_no_skip env cfg analysis h]
    by_cases hs : (successIds (analysis.losers.map fun l =>
        download_loser env cfg l.asset_id l.filename)).isEmpty
    · constructor
      · intro ids force hcall
        simp only [hs, if_pos rfl] at hcall
        simp at hcall
      · intro _ _
        exact ⟨by simp [hs], by simp [hs]⟩
    · constructor
      · intro ids force hcall
        rcases hdel : env.deleteAssets (successIds (analysis.losers.map fun l =>
            download_loser env cfg l.asset_id l.filename)) cfg.force_delete with e | u <;>
          simp only [hs, hdel, Bool.false_eq_true, if_false] at hcall <;>
            simp only [Option.some.injEq, Prod.mk.injEq] at hcall <;>
              rw [← hcall.1]
        · exact fun a ha => ha
        · exact fun a ha => ha
      · intro _ hsucc
        exfalso
        rw [show successIds (analysis.losers.map fun l =>
            download_loser env cfg l.asset_id l.filename) = [] from hsucc] at hs
        simp at hs

/-! ## C2 -/

/-- C2: with album preservation enabled and a transfer failure recorded,
`execute_group` attempts no download and no delete: the download result
list and the download calls are empty, no `deleteAssets` call is made, and
the delete result is exactly one Skipped operation citing album
integrity. -/
theorem album_failure_short_circuit (env : Env) (cfg : ExecutionConfig)
    (analysis : DuplicateAnalysis) (hp : cfg.preserve_albums = true)
    (hf : (transfer_albums env analysis).had_failures = true) :
    (execute_group env cfg analysis).result.download_results = [] ∧
    (execute_group env cfg analysis).downloadCalls = [] ∧
    (execute_group env cfg analysis).deleteCall = none ∧
    (execute_group env cfg analysis).result.delete_result =
      some (.Skipped analysis.duplicate_id
        "Album transfer failed after retry, skipping deletion to preserve album integrity") := by
  rw [execute_group_skip env cfg analysis hp hf]
  exact ⟨rfl, rfl, rfl, rfl⟩

/-! ## Executor fixtures for witnesses and counterexamples -/

def cfgW : ExecutionConfig :=
  { requests_per_sec := 10, max_concurrent := 5, backup_dir := "backups"
    force_delete := false, preserve_albums := true }

def cfgNoAlb : ExecutionConfig :=
  { cfgW with preserve_albums := false }

def scoredFix (i : String) : ScoredAsset :=
  { asset_id := i, filename := i ++ ".jpg", score := ⟨0, 0, 0, 0, 0, 0, 0⟩, file_size := none }

def analysisW : DuplicateAnalysis :=
  { duplicate_id := "gw", winner := scoredFix "w", losers := [scoredFix "l1"]
    conflicts := [], needs_review := false }

def analysisW2 : DuplicateAnalysis :=
  { duplicate_id := "g2", winner := scoredFix "w"
    losers := [scoredFix "l1", scoredFix "l2"], conflicts := [], needs_review := false }

/-- All remote calls fail except album lookup; album transfer attempts
always fail. -/
def envAlbumFail : Env :=
  { getAsset := fun _ => .error "offline"
    getAlbumsForAsset := fun _ => .ok [{ id := "alb1", album_name := "Trip" }]
    download := fun _ => .error "offline"
    deleteAssets := fun _ _ => .ok ()
    updateMetadata := fun _ => .ok ()
    transferAttempt := fun _ _ => false }

/-- Downloads succeed, deletes succeed, no albums anywhere. -/
def envDownloadOk : Env :=
  { getAsset := fun _ => .error "offline"
    getAlbumsForAsset := fun _ => .ok []
    download := fun _ => .ok 1000
    deleteAssets := fun _ _ => .ok ()
    updateMetadata := fun _ => .ok ()
    transferAttempt := fun _ _ => true }

/-- Downloads fail. -/
def envDownloadFail : Env :=
  { getAsset := fun _ => .error "offline"
    getAlbumsForAsset := fun _ => .ok []
    download := fun _ => .error "disk full"
    deleteAssets := fun _ _ => .ok ()
    updateMetadata := fun _ => .ok ()
    transferAttempt := fun _ _ => true }

theorem delete_only_downloaded_witness :
    ["l1"] ⊆ successIds (execute_group envDownloadOk cfgNoAlb analysisW).result.download_results ∧
    (execute_group envDownloadFail cfgNoAlb analysisW).deleteCall = none ∧
    (execute_group envDownloadFail cfgNoAlb analysisW).result.delete_result =
      some (.Skipped "gw" "No assets were successfully downloaded") :=
  ⟨(delete_only_downloaded envDownloadOk cfgNoAlb analysisW).1 ["l1"] false rfl,
    ((delete_only_downloaded envDownloadFail cfgNoAlb analysisW).2 rfl (by decide)).1,
    ((delete_only_downloaded envDownloadFail cfgNoAlb analysisW).2 rfl (by decide)).2⟩

theorem album_failure_short_circuit_witness :
    (execute_group envAlbumFail cfgW analysisW).result.download_results = [] ∧
    (execute_group envAlbumFail cfgW analysisW).downloadCalls = [] ∧
    (execute_group envAlbumFail cfgW analysisW).deleteCall = none ∧
    (execute_group envAlbumFail cfgW analysisW).result.delete_result =
      some (.Skipped "gw"
        "Album transfer failed after retry, skipping deletion to preserve album integrity") :=
  album_failure_short_circuit envAlbumFail cfgW analysisW rfl (by decide)

/-! ## C5 -/

/-- The per-album transfer fold never clears the failure flag. -/
theorem transferAlbumsStep_foldl_failed (env : Env) (albums : List AlbumResponse) :
    ∀ acc : List String × List String × Bool × List String, acc.2.2.1 = true →
      (albums.foldl (transferAlbumsStep env) acc).2.2.1 = true := by
  induction albums with
  | nil => intro acc h; exact h
  | cons a as ih =>
    intro acc h
    simp only [List.foldl_cons]
    apply ih
    unfold transferAlbumsStep
    split
    · exact h
    · rfl

/-- C5 counterexample: the only failing remote call is the album lookup
for loser l1; the single album (found on l2) transfers successfully on its
first attempt; yet the lookup failure alone short-circuits the group:
no download call is made and the delete step is skipped. -/
def envCex5 : Env :=
  { getAsset := fun _ => .error "offline"
    getAlbumsForAsset := fun i =>
      if i = "l1" then .error "network error" else .ok [{ id := "alb1", album_name := "Holiday" }]
    download := fun _ => .ok 100
    deleteAssets := fun _ _ => .ok ()
    updateMetadata := fun _ => .ok ()
    transferAttempt := fun _ _ => true }

theorem album_lookup_failure_cex :
    envCex5.getAlbumsForAsset "l1" = .error "network error" ∧
    envCex5.transferAttempt "alb1" 0 = true ∧
    (transfer_albums envCex5 analysisW2).albums_transferred = 1 ∧
    (transfer_albums envCex5 analysisW2).had_failures = true ∧
    (execute_group envCex5 cfgW analysisW2).downloadCalls = [] ∧
    (execute_group envCex5 cfgW analysisW2).deleteCall = none ∧
    (execute_group envCex5 cfgW analysisW2).result.delete_result =
      some (.Skipped "g2"
        "Album transfer failed after retry, skipping deletion to preserve album integrity") := by
  refine ⟨rfl, rfl, ?_, ?_, ?_, ?_, ?_⟩ <;> decide

/-- C5 (amended): an album-membership lookup failure is swallowed exactly
when no album is found across all losers — the transfer result then has
`had_failures = false` and the group's downloads proceed; but when at
least one album was found, a lookup failure sets `had_failures = true` and
by itself causes the group's download and delete steps to be skipped. -/
theorem album_lookup_failure_policy (env : Env) (cfg : ExecutionConfig)
    (analysis : DuplicateAnalysis) (hp : cfg.preserve_albums = true) :
    ((collectAlbumsGo env [] false [] analysis.losers).1 = [] →
      (transfer_albums env analysis).had_failures = false ∧
      (execute_group env cfg analysis).downloadCalls =
        analysis.losers.map fun l => l.asset_id) ∧
    ((collectAlbumsGo env [] false [] analysis.losers).1 ≠ [] →
      (collectAlbumsGo env [] false [] analysis.losers).2.1 = true →
      (transfer_albums env analysis).had_failures = true ∧
      (execute_group env cfg analysis).downloadCalls = [] ∧
      (execute_group env cfg analysis).deleteCall = none) := by
  constructor
  · intro he
    have htf : (transfer_albums env analysis).had_failures = false := by
      unfold transfer_albums
      simp [he]
    refine ⟨htf, ?_⟩
    rw [execute_group_no_skip env cfg analysis (Or.inr htf)]
  · intro hne hfail
    have htf : (transfer_albums env analysis).had_failures = true := by
      unfold transfer_albums
      rw [if_neg (by simpa [List.isEmpty_iff] using hne)]
      exact transferAlbumsStep_foldl_failed env _ _ hfail
    refine ⟨htf, ?_, ?_⟩ <;> rw [execute_group_skip env cfg analysis hp htf]

/-- A lookup that fails on the only loser, finding no albums at all. -/
def envLookupFailEmpty : Env :=
  { getAsset := fun _ => .error "offline"
    getAlbumsForAsset := fun _ => .error "network error"
    download := fun _ => .ok 100
    deleteAssets := fun _ _ => .ok ()
    updateMetadata := fun _ => .ok ()
    transferAttempt := fun _ _ => true }

theorem album_lookup_failure_policy_witness :
    ((transfer_albums envLookupFailEmpty analysisW).had_failures = false ∧
      (execute_group envLookupFailEmpty cfgW analysisW).downloadCalls =
        analysisW.losers.map fun l => l.asset_id) ∧
    ((transfer_albums envCex5 analysisW2).had_failures = true ∧
      (execute_group envCex5 cfgW analysisW2).downloadCalls = [] ∧
      (execute_group envCex5 cfgW analysisW2).deleteCall = none) :=
  ⟨(album_lookup_failure_policy envLookupFailEmpty cfgW analysisW rfl).1 rfl,
    (album_lookup_failure_policy envCex5 cfgW analysisW2 rfl).2 (by decide) (by decide)⟩

/-! ## Consolidation characterization (for C6) -/

/-- Claim side: the GPS source a given EXIF block offers. -/
def exifGps (e : ExifInfo) (i : String) : Option (ℚ × ℚ × String) :=
  if e.has_gps then
    match e.latitude, e.longitude with
    | some lat, some lon => some (lat, lon, i)
    | _, _ => none
  else none

def exifDt (e : ExifInfo) (i : String) : Option (String × String) :=
  e.date_time_original.map fun dt => (dt, i)

def exifDesc (e : ExifInfo) (i : String) : Option (String × String) :=
  e.description.map fun d => (d, i)

def assetGps (a : AssetResponse) (i : String) : Option (ℚ × ℚ × String) :=
  match a.exif_info with
  | none => none
  | some e => exifGps e i

def assetDt (a : AssetResponse) (i : String) : Option (String × String) :=
  match a.exif_info with
  | none => none
  | some e => exifDt e i

def assetDesc (a : AssetResponse) (i : String) : Option (String × String) :=
  match a.exif_info with
  | none => none
  | some e => exifDesc e i

/-- Claim side: the first loser, in scan order, whose fetch succeeds and
which offers the field. -/
def firstGpsSource (env : Env) (losers : List ScoredAsset) : Option (ℚ × ℚ × String) :=
  losers.findSome? fun l =>
    match env.getAsset l.asset_id with
    | .error _ => none
    | .ok a => assetGps a l.asset_id

def firstDatetimeSource (env : Env) (losers : List ScoredAsset) : Option (String × String) :=
  losers.findSome? fun l =>
    match env.getAsset l.asset_id with
    | .error _ => none
    | .ok a => assetDt a l.asset_id

def firstDescriptionSource (env : Env) (losers : List ScoredAsset) : Option (String × String) :=
  losers.findSome? fun l =>
    match env.getAsset l.asset_id with
    | .error _ => none
    | .ok a => assetDesc a l.asset_id

theorem orElse_none {α : Type} (o : Option α) : (o.orElse fun _ => none) = o := by
  cases o <;> rfl

theorem orElse_assoc {α : Type} (o1 o2 o3 : Option α) :
    ((o1.orElse fun _ => o2).orElse fun _ => o3) =
      o1.orElse fun _ => o2.orElse fun _ => o3 := by
  cases o1 <;> rfl

/-! Frame lemmas: each scan sub-step only writes its own field. -/

theorem scanStepDt_gps (w_dt : Bool) (st : ScanState) (i : String) (e : ExifInfo) :
    (scanStepDt w_dt st i e).best_gps = st.best_gps := by
  unfold scanStepDt
  cases e.date_time_original <;> split <;> rfl

theorem scanStepDesc_gps (w_desc : Bool) (st : ScanState) (i : String) (e : ExifInfo) :
    (scanStepDesc w_desc st i e).best_gps = st.best_gps := by
  unfold scanStepDesc
  cases e.description <;> split <;> rfl

theorem scanStepGps_dt (w_gps : Bool) (st : ScanState) (i : String) (e : ExifInfo) :
    (scanStepGps w_gps st i e).best_datetime = st.best_datetime := by
  unfold scanStepGps
  cases e.latitude <;> cases e.longitude <;> split <;> rfl

theorem scanStepDesc_dt (w_desc : Bool) (st : ScanState) (i : String) (e : ExifInfo) :
    (scanStepDesc w_desc st i e).best_datetime = st.best_datetime := by
  unfold scanStepDesc
  cases e.description <;> split <;> rfl

theorem scanStepGps_desc (w_gps : Bool) (st : ScanState) (i : String) (e : ExifInfo) :
    (scanStepGps w_gps st i e).best_description = st.best_description := by
  unfold scanStepGps
  cases e.latitude <;> cases e.longitude <;> split <;> rfl

theorem scanStepDt_desc (w_dt : Bool) (st : ScanState) (i : String) (e : ExifInfo) :
    (scanStepDt w_dt st i e).best_description = st.best_description := by
  unfold scanStepDt
  cases e.date_time_original <;> split <;> rfl

/-! Each sub-step implements first-found for its field. -/

theorem scanStepGps_best (w_gps : Bool) (st : ScanState) (i : String) (e : ExifInfo) :
    (scanStepGps w_gps st i e).best_gps =
      if w_gps then st.best_gps else st.best_gps.orElse fun _ => exifGps e i := by
  unfold scanStepGps exifGps ExifInfo.has_gps
  cases w_gps <;> cases hbg : st.best_gps <;>
    cases hlat : e.latitude <;> cases hlon : e.longitude <;> simp [hbg, hlat, hlon]

theorem scanStepDt_best (w_dt : Bool) (st : ScanState) (i : String) (e : ExifInfo) :
    (scanStepDt w_dt st i e).best_datetime =
      if w_dt then st.best_datetime else st.best_datetime.orElse fun _ => exifDt e i := by
  unfold scanStepDt exifDt
  cases w_dt <;> cases hbd : st.best_datetime <;>
    cases hdt : e.date_time_original <;> simp [hbd, hdt]

theorem scanStepDesc_best (w_desc : Bool) (st : ScanState) (i : String) (e : ExifInfo) :
    (scanStepDesc w_desc st i e).best_description =
      if w_desc then st.best_description
      else st.best_description.orElse fun _ => exifDesc e i := by
  unfold scanStepDesc exifDesc
  cases w_desc <;> cases hbd : st.best_description <;>
    cases hd : e.description <;> simp [hbd, hd]

theorem scanStep_best_gps (wg wd wdesc : Bool) (st : ScanState) (i : String)
    (a : AssetResponse) :
    (scanStep wg wd wdesc st i a).best_gps =
      if wg then st.best_gps else st.best_gps.orElse fun _ => assetGps a i := by
  unfold scanStep assetGps
  cases a.exif_info with
  | none => cases wg <;> simp [orElse_none]
  | some e => rw [scanStepDesc_gps, scanStepDt_gps, scanStepGps_best]

theorem scanStep_best_dt (wg wd wdesc : Bool) (st : ScanState) (i : String)
    (a : AssetResponse) :
    (scanStep wg wd wdesc st i a).best_datetime =
      if wd then st.best_datetime else st.best_datetime.orElse fun _ => assetDt a i := by
  unfold scanStep assetDt
  cases a.exif_info with
  | none => cases wd <;> simp [orElse_none]
  | some e => rw [scanStepDesc_dt, scanStepDt_best, scanStepGps_dt]

theorem scanStep_best_desc (wg wd wdesc : Bool) (st : ScanState) (i : String)
    (a : AssetResponse) :
    (scanStep wg wd wdesc st i a).best_description =
      if wdesc then st.best_description
      else st.best_description.orElse fun _ => assetDesc a i := by
  unfold scanStep assetDesc
  cases a.exif_info with
  | none => cases wdesc <;> simp [orElse_none]
  | some e => rw [scanStepDesc_best, scanStepDt_desc, scanStepGps_desc]

theorem firstGpsSource_cons_error (env : Env) (l : ScoredAsset) (rest : List ScoredAsset)
    (e : String) (henv : env.getAsset l.asset_id = .error e) :
    firstGpsSource env (l :: rest) = firstGpsSource env rest := by
  unfold firstGpsSource
  rw [List.findSome?_cons]
  simp [henv]

theorem firstDatetimeSource_cons_error (env : Env) (l : ScoredAsset) (rest : List ScoredAsset)
    (e : String) (henv : env.getAsset l.asset_id = .error e) :
    firstDatetimeSource env (l :: rest) = firstDatetimeSource env rest := by
  unfold firstDatetimeSource
  rw [List.findSome?_cons]
  simp [henv]

theorem firstDescriptionSource_cons_error (env : Env) (l : ScoredAsset)
    (rest : List ScoredAsset) (e : String) (henv : env.getAsset l.asset_id = .error e) :
    firstDescriptionSource env (l :: rest) = firstDescriptionSource env rest := by
  unfold firstDescriptionSource
  rw [List.findSome?_cons]
  simp [henv]

theorem firstGpsSource_cons_ok (env : Env) (l : ScoredAsset) (rest : List ScoredAsset)
    (a : AssetResponse) (henv : env.getAsset l.asset_id = .ok a) :
    firstGpsSource env (l :: rest) =
      (assetGps a l.asset_id).orElse fun _ => firstGpsSource env rest := by
  unfold firstGpsSource
  rw [List.findSome?_cons]
  simp only [henv]
  cases assetGps a l.asset_id <;> rfl

theorem firstDatetimeSource_cons_ok (env : Env) (l : ScoredAsset) (rest : List ScoredAsset)
    (a : AssetResponse) (henv : env.getAsset l.asset_id = .ok a) :
    firstDatetimeSource env (l :: rest) =
      (assetDt a l.asset_id).orElse fun _ => firstDatetimeSource env rest := by
  unfold firstDatetimeSource
  rw [List.findSome?_cons]
  simp only [henv]
  cases assetDt a l.asset_id <;> rfl

theorem firstDescriptionSource_cons_ok (env : Env) (l : ScoredAsset) (rest : List ScoredAsset)
    (a : AssetResponse) (henv : env.getAsset l.asset_id = .ok a) :
    firstDescriptionSource env (l :: rest) =
      (assetDesc a l.asset_id).orElse fun _ => firstDescriptionSource env rest := by
  unfold firstDescriptionSource
  rw [List.findSome?_cons]
  simp only [henv]
  cases assetDesc a l.asset_id <;> rfl

/-- The scan computes, for each field the winner lacks, the first-found
source over the losers in order, independently per field. -/
theorem scanLosers_best (env : Env) (wg wd wdesc : Bool) :
    ∀ (losers : List ScoredAsset) (st : ScanState),
      (scanLosers env wg wd wdesc losers st).1.best_gps =
        (if wg then st.best_gps
          else st.best_gps.orElse fun _ => firstGpsSource env losers) ∧
      (scanLosers env wg wd wdesc losers st).1.best_datetime =
        (if wd then st.best_datetime
          else st.best_datetime.orElse fun _ => firstDatetimeSource env losers) ∧
      (scanLosers env wg wd wdesc losers st).1.best_description =
        (if wdesc then st.best_description
          else st.best_description.orElse fun _ => firstDescriptionSource env losers) := by
  intro losers
  induction losers with
  | nil =>
    intro st
    refine ⟨?_, ?_, ?_⟩
    · cases wg <;> simp [scanLosers, firstGpsSource, orElse_none]
    · cases wd <;> simp [scanLosers, firstDatetimeSource, orElse_none]
    · cases wdesc <;> simp [scanLosers, firstDescriptionSource, orElse_none]
  | cons l rest ih =>
    intro st
    simp only [scanLosers]
    cases henv : env.getAsset l.asset_id with
    | error e =>
      obtain ⟨ih1, ih2, ih3⟩ := ih st
      rw [firstGpsSource_cons_error env l rest e henv,
        firstDatetimeSource_cons_error env l rest e henv,
        firstDescriptionSource_cons_error env l rest e henv]
      exact ⟨ih1, ih2, ih3⟩
    | ok a =>
      dsimp only
      rw [firstGpsSource_cons_ok env l rest a henv,
        firstDatetimeSource_cons_ok env l rest a henv,
        firstDescriptionSource_cons_ok env l rest a henv]
      by_cases hsat : scanSatisfied wg wd wdesc (scanStep wg wd wdesc st l.asset_id a) = true
      · rw [if_pos hsat]
        have hs := hsat
        simp only [scanSatisfied, Bool.and_eq_true, Bool.or_eq_true] at hs
        obtain ⟨⟨hs1, hs2⟩, hs3⟩ := hs
        refine ⟨?_, ?_, ?_⟩
        · rw [scanStep_best_gps]
          cases wg with
          | true => rfl
          | false =>
            simp only [if_false, Bool.false_eq_true] at *
            rcases hs1 with h | h
            · cases h
            · rw [scanStep_best_gps] at h
              cases hbg : st.best_gps with
              | some x => rfl
              | none =>
                simp only [hbg, if_false, Bool.false_eq_true] at h ⊢
                cases hga : assetGps a l.asset_id with
                | some g => rfl
                | none =>
                  rw [hga] at h
                  simp [Option.orElse] at h
        · rw [scanStep_best_dt]
          cases wd with
          | true => rfl
          | false =>
            simp only [if_false, Bool.false_eq_true] at *
            rcases hs2 with h | h
            · cases h
            · rw [scanStep_best_dt] at h
              cases hbd : st.best_datetime with
              | some x => rfl
              | none =>
                simp only [hbd, if_false, Bool.false_eq_true] at h ⊢
                cases hda : assetDt a l.asset_id with
                | some g => rfl
                | none =>
                  rw [hda] at h
                  simp [Option.orElse] at h
        · rw [scanStep_best_desc]
          cases wdesc with
          | true => rfl
          | false =>
            simp only [if_false, Bool.false_eq_true] at *
            rcases hs3 with h | h
            · cases h
            · rw [scanStep_best_desc] at h
              cases hbd : st.best_description with
              | some x => rfl
              | none =>
                simp only [hbd, if_false, Bool.false_eq_true] at h ⊢
                cases hda : assetDesc a l.asset_id with
                | some g => rfl
                | none =>
                  rw [hda] at h
                  simp [Option.orElse] at h
      · rw [if_neg hsat]
        obtain ⟨ih1, ih2, ih3⟩ := ih (scanStep wg wd wdesc st l.asset_id a)
        refine ⟨?_, ?_, ?_⟩
        · rw [ih1, scanStep_best_gps]
          cases wg with
          | true => rfl
          | false => simp only [if_false, Bool.false_eq_true, orElse_assoc]
        · rw [ih2, scanStep_best_dt]
          cases wd with
          | true => rfl
          | false => simp only [if_false, Bool.false_eq_true, orElse_assoc]
        · rw [ih3, scanStep_best_desc]
          cases wdesc with
          | true => rfl
          | false => simp only [if_false, Bool.false_eq_true, orElse_assoc]

/-- Claim side: whether the first `k` losers already satisfy every field
the winner lacks (given the fields found so far in `st`). -/
def satUpto (env : Env) (wg wd wdesc : Bool) (st : ScanState) (losers : List ScoredAsset)
    (k : Nat) : Bool :=
  (wg || st.best_gps.isSome || (firstGpsSource env (losers.take k)).isSome) &&
    (wd || st.best_datetime.isSome || (firstDatetimeSource env (losers.take k)).isSome) &&
    (wdesc || st.best_description.isSome || (firstDescriptionSource env (losers.take k)).isSome)

theorem orElse_isSome_step {α : Type} (w : Bool) (stf af rf : Option α)
    (h : (w = true ∨ stf.isSome = true) ∨ (af.orElse fun _ => rf).isSome = true) :
    (w = true ∨ (if w then stf else stf.orElse fun _ => af).isSome = true) ∨
      rf.isSome = true := by
  cases w
  · simp only [Bool.false_eq_true, if_false]
    rcases h with (h | h) | h
    · exact absurd h (by decide)
    · cases stf with
      | some x => exact Or.inl (Or.inr rfl)
      | none => simp at h
    · cases haf : af with
      | some x =>
        refine Or.inl (Or.inr ?_)
        cases stf <;> rfl
      | none =>
        rw [haf] at h
        exact Or.inr h
  · exact Or.inl (Or.inl rfl)

/-- The scan stops as soon as a prefix of the losers satisfies every
needed field: if the first `k` losers suffice, at most `k` fetches are
made. -/
theorem scanLosers_trace_le (env : Env) (wg wd wdesc : Bool) :
    ∀ (losers : List ScoredAsset) (st : ScanState) (k : Nat),
      scanSatisfied wg wd wdesc st = false →
      satUpto env wg wd wdesc st losers k = true →
      (scanLosers env wg wd wdesc losers st).2.length ≤ k := by
  intro losers
  induction losers with
  | nil => intro st k _ _; simp [scanLosers]
  | cons l rest ih =>
    intro st k hunsat hsat
    match k with
    | 0 =>
      exfalso
      unfold satUpto at hsat
      simp only [List.take_zero] at hsat
      unfold firstGpsSource firstDatetimeSource firstDescriptionSource at hsat
      simp only [List.findSome?_nil, Option.isSome_none, Bool.or_false] at hsat
      unfold scanSatisfied at hunsat
      rw [hunsat] at hsat
      cases hsat
    | k + 1 =>
      simp only [scanLosers]
      cases henv : env.getAsset l.asset_id with
      | error e =>
        dsimp only
        simp only [List.length_cons, Nat.add_le_add_iff_right]
        apply ih st k hunsat
        unfold satUpto at hsat ⊢
        simp only [List.take_succ_cons] at hsat
        rw [firstGpsSource_cons_error env l _ e henv,
          firstDatetimeSource_cons_error env l _ e henv,
          firstDescriptionSource_cons_error env l _ e henv] at hsat
        exact hsat
      | ok a =>
        dsimp only
        by_cases hsat1 : scanSatisfied wg wd wdesc (scanStep wg wd wdesc st l.asset_id a) = true
        · rw [if_pos hsat1]
          simp
        · rw [if_neg hsat1]
          simp only [List.length_cons, Nat.add_le_add_iff_right]
          apply ih _ k (Bool.not_eq_true _ ▸ hsat1)
          unfold satUpto at hsat ⊢
          simp only [List.take_succ_cons] at hsat
          rw [firstGpsSource_cons_ok env l _ a henv,
            firstDatetimeSource_cons_ok env l _ a henv,
            firstDescriptionSource_cons_ok env l _ a henv] at hsat
          simp only [Bool.and_eq_true, Bool.or_eq_true] at hsat ⊢
          obtain ⟨⟨h1, h2⟩, h3⟩ := hsat
          refine ⟨⟨?_, ?_⟩, ?_⟩
          · rw [scanStep_best_gps]
            exact orElse_isSome_step wg st.best_gps (assetGps a l.asset_id) _ h1
          · rw [scanStep_best_dt]
            exact orElse_isSome_step wd st.best_datetime (assetDt a l.asset_id) _ h2
          · rw [scanStep_best_desc]
            exact orElse_isSome_step wdesc st.best_description (assetDesc a l.asset_id) _ h3

/-! ## Independence of downloads/deletes from the consolidation oracles -/

theorem not_skip_or (env : Env) (cfg : ExecutionConfig) (analysis : DuplicateAnalysis)
    (hskip : ¬(cfg.preserve_albums = true ∧ (transfer_albums env analysis).had_failures = true)) :
    cfg.preserve_albums = false ∨ (transfer_albums env analysis).had_failures = false := by
  cases hp : cfg.preserve_albums with
  | false => exact Or.inl rfl
  | true =>
    cases hb : (transfer_albums env analysis).had_failures with
    | false => exact Or.inr rfl
    | true => exact absurd ⟨hp, hb⟩ hskip

theorem collectAlbumsGo_congr (env env2 : Env)
    (h : env.getAlbumsForAsset = env2.getAlbumsForAsset) :
    ∀ (losers : List ScoredAsset) (acc : List AlbumResponse) (failed : Bool)
      (msgs : List String),
      collectAlbumsGo env acc failed msgs losers = collectAlbumsGo env2 acc failed msgs losers := by
  intro losers
  induction losers with
  | nil => intro acc failed msgs; rfl
  | cons l rest ih =>
    intro acc failed msgs
    simp only [collectAlbumsGo, h]
    cases env2.getAlbumsForAsset l.asset_id with
    | ok albums => exact ih _ _ _
    | error e => exact ih _ _ _

theorem transfer_albums_congr (env env2 : Env) (analysis : DuplicateAnalysis)
    (h1 : env.getAlbumsForAsset = env2.getAlbumsForAsset)
    (h2 : env.transferAttempt = env2.transferAttempt) :
    transfer_albums env analysis = transfer_albums env2 analysis := by
  unfold transfer_albums
  rw [collectAlbumsGo_congr env env2 h1]
  have hstep : transferAlbumsStep env = transferAlbumsStep env2 := by
    funext acc album
    unfold transferAlbumsStep
    rw [h2]
  rw [hstep]

theorem download_loser_congr (env env2 : Env) (cfg : ExecutionConfig)
    (h3 : env.download = env2.download) :
    download_loser env cfg = download_loser env2 cfg := by
  funext i f
  unfold download_loser
  rw [h3]

/-- The executor's download and delete behaviour is a function of the
album, download and delete oracles only: two environments that agree on
those (but may disagree on `getAsset`/`updateMetadata`, the only calls
consolidation makes) produce identical download results, download calls,
delete result and delete call. -/
theorem execute_group_consolidation_independent (env env2 : Env) (cfg : ExecutionConfig)
    (analysis : DuplicateAnalysis)
    (h1 : env.getAlbumsForAsset = env2.getAlbumsForAsset)
    (h2 : env.transferAttempt = env2.transferAttempt)
    (h3 : env.download = env2.download)
    (h4 : env.deleteAssets = env2.deleteAssets) :
    (execute_group env cfg analysis).result.download_results =
      (execute_group env2 cfg analysis).result.download_results ∧
    (execute_group env cfg analysis).result.delete_result =
      (execute_group env2 cfg analysis).result.delete_result ∧
    (execute_group env cfg analysis).downloadCalls =
      (execute_group env2 cfg analysis).downloadCalls ∧
    (execute_group env cfg analysis).deleteCall =
      (execute_group env2 cfg analysis).deleteCall := by
  have ht := transfer_albums_congr env env2 analysis h1 h2
  by_cases hskip : cfg.preserve_albums = true ∧ (transfer_albums env analysis).had_failures = true
  · obtain ⟨hp, hf⟩ := hskip
    rw [execute_group_skip env cfg analysis hp hf,
      execute_group_skip env2 cfg analysis hp (ht ▸ hf)]
    exact ⟨rfl, rfl, rfl, rfl⟩
  · have h := not_skip_or env cfg analysis hskip
    rw [execute_group_no_skip env cfg analysis h,
      execute_group_no_skip env2 cfg analysis (by rw [← ht]; exact h)]
    have hdl : (fun l : ScoredAsset => download_loser env cfg l.asset_id l.filename) =
        fun l : ScoredAsset => download_loser env2 cfg l.asset_id l.filename := by
      rw [download_loser_congr env env2 cfg h3]
    rw [hdl, h4]
    exact ⟨rfl, rfl, rfl, rfl⟩

/-! ## C6 -/

/-- Claim side: the consolidation outcome predicted from the first-found
per-field sources. -/
def specConsolidate (env : Env) (analysis : DuplicateAnalysis) (w : AssetResponse) :
    Option ConsolidationResult :=
  let bg := if winnerHasGps w then none else firstGpsSource env analysis.losers
  let bd := if winnerHasDatetime w then none else firstDatetimeSource env analysis.losers
  let bdesc := if winnerHasDescription w then none
    else firstDescriptionSource env analysis.losers
  if bg.isNone && bd.isNone && bdesc.isNone then none
  else
    match env.updateMetadata analysis.winner.asset_id with
    | .ok _ => some
        { gps_transferred := bg.isSome
          datetime_transferred := bd.isSome
          description_transferred := bdesc.isSome
          source_asset_id := (bg.map fun b => b.2.2).orElse fun _ =>
            (bd.map fun b => b.2).orElse fun _ => bdesc.map fun b => b.2 }
    | .error _ => none

/-- Winner with no EXIF block, loser l1 unfetchable, loser l2 carrying
GPS; the update succeeds. -/
def winnerAssetFix : AssetResponse :=
  { id := "w", original_file_name := "w.jpg", exif_info := none }

def envCex6 : Env :=
  { getAsset := fun i =>
      if i = "w" then .ok winnerAssetFix
      else if i = "l2" then
        .ok { id := "l2", original_file_name := "l2.jpg",
              exif_info := some { emptyExif with latitude := some 1, longitude := some 2 } }
      else .error "gone"
    getAlbumsForAsset := fun _ => .ok []
    download := fun _ => .ok 10
    deleteAssets := fun _ _ => .ok ()
    updateMetadata := fun _ => .ok ()
    transferAttempt := fun _ _ => true }

/-- C6 counterexample: the fetch of loser l1 fails, yet a
`ConsolidationResult` is produced (from l2): a loser-fetch failure does
not yield "no ConsolidationResult", it merely skips that loser. -/
theorem consolidation_fetch_failure_cex :
    envCex6.getAsset "l1" = .error "gone" ∧
    (consolidate_metadata envCex6 analysisW2).1 =
      some { gps_transferred := true, datetime_transferred := false
             description_transferred := false, source_asset_id := some "l2" } := by
  exact ⟨rfl, by decide⟩

/-- C6 (amended): consolidation returns no result when the winner fetch
fails, when the winner already has GPS, capture time and description, or
when the metadata update fails; otherwise it is fully characterized by
the first-found source per missing field over the losers in scan order
(a failed loser fetch merely skips that loser as a source; a later loser
never overrides an earlier match), the scan stops at the first prefix of
losers satisfying every missing field, and the consolidation oracles
(`getAsset`/`updateMetadata`) have no influence on the group's
download/delete behaviour. -/
theorem consolidation_characterization (env : Env) (cfg : ExecutionConfig)
    (analysis : DuplicateAnalysis) :
    (∀ e, env.getAsset analysis.winner.asset_id = .error e →
      consolidate_metadata env analysis = (none, [])) ∧
    (∀ w, env.getAsset analysis.winner.asset_id = .ok w →
      (winnerHasGps w && winnerHasDatetime w && winnerHasDescription w) = true →
      consolidate_metadata env analysis = (none, [])) ∧
    (∀ e, env.updateMetadata analysis.winner.asset_id = .error e →
      (consolidate_metadata env analysis).1 = none) ∧
    (∀ w, env.getAsset analysis.winner.asset_id = .ok w →
      (winnerHasGps w && winnerHasDatetime w && winnerHasDescription w) = false →
      (consolidate_metadata env analysis).1 = specConsolidate env analysis w ∧
      (∀ k, satUpto env (winnerHasGps w) (winnerHasDatetime w) (winnerHasDescription w)
          ⟨none, none, none⟩ analysis.losers k = true →
        (consolidate_metadata env analysis).2.length ≤ k)) ∧
    (∀ env2 : Env, env.getAlbumsForAsset = env2.getAlbumsForAsset →
      env.transferAttempt = env2.transferAttempt → env.download = env2.download →
      env.deleteAssets = env2.deleteAssets →
      (execute_group env cfg analysis).result.download_results =
        (execute_group env2 cfg analysis).result.download_results ∧
      (execute_group env cfg analysis).result.delete_result =
        (execute_group env2 cfg analysis).result.delete_result ∧
      (execute_group env cfg analysis).deleteCall =
        (execute_group env2 cfg analysis).deleteCall) := by
  refine ⟨?_, ?_, ?_, ?_, ?_⟩
  · intro e h
    unfold consolidate_metadata
    rw [h]
  · intro w h hall
    unfold consolidate_metadata
    rw [h]
    try dsimp only
    rw [if_pos hall]
  · intro e hupd
    unfold consolidate_metadata
    cases hw : env.getAsset analysis.winner.asset_id with
    | error e2 => rfl
    | ok w =>
      try dsimp only
      by_cases hall : (winnerHasGps w && winnerHasDatetime w && winnerHasDescription w) = true
      · rw [if_pos hall]
      · rw [if_neg hall]
        try dsimp only
        split
        · rfl
        · rw [hupd]
  · intro w h hall
    have hifneg : ¬((winnerHasGps w && winnerHasDatetime w && winnerHasDescription w) = true) := by
      rw [hall]
      exact Bool.false_ne_true
    obtain ⟨hbg, hbd, hbdesc⟩ := scanLosers_best env (winnerHasGps w) (winnerHasDatetime w)
      (winnerHasDescription w) analysis.losers ⟨none, none, none⟩
    dsimp only [Option.orElse] at hbg hbd hbdesc
    constructor
    · unfold consolidate_metadata specConsolidate
      rw [h]
      try dsimp only
      rw [if_neg hifneg]
      try dsimp only
      rw [hbg, hbd, hbdesc]
      by_cases hcond : ((if winnerHasGps w then none
            else firstGpsSource env analysis.losers).isNone &&
          (if winnerHasDatetime w then none
            else firstDatetimeSource env analysis.losers).isNone &&
          (if winnerHasDescription w then none
            else firstDescriptionSource env analysis.losers).isNone) = true
      · rw [if_pos hcond, if_pos hcond]
      · rw [if_neg hcond, if_neg hcond]
        cases hu : env.updateMetadata analysis.winner.asset_id <;> rfl
    · intro k hk
      unfold consolidate_metadata
      rw [h]
      try dsimp only
      rw [if_neg hifneg]
      try dsimp only
      have hunsat : scanSatisfied (winnerHasGps w) (winnerHasDatetime w)
          (winnerHasDescription w) ⟨none, none, none⟩ = false := by
        simpa [scanSatisfied] using hall
      have htr := scanLosers_trace_le env _ _ _ analysis.losers ⟨none, none, none⟩ k hunsat hk
      split
      · exact htr
      · cases hu : env.updateMetadata analysis.winner.asset_id <;> exact htr
  · intro env2 h1 h2 h3 h4
    obtain ⟨a, b, -, d⟩ :=
      execute_group_consolidation_independent env env2 cfg analysis h1 h2 h3 h4
    exact ⟨a, b, d⟩

/-- Like `envCex6` but the metadata update fails. -/
def envUpdateFail : Env :=
  { envCex6 with updateMetadata := fun _ => .error "boom" }

/-- A loser carrying GPS, capture time and description. -/
def loserFullAsset : AssetResponse :=
  { id := "l1"
    original_file_name := "l1.jpg"
    exif_info := some { emptyExif with
      latitude := some 1
      longitude := some 2
      date_time_original := some "2020-01-01"
      description := some "d" } }

/-- Winner lacks everything, the first loser offers all three fields. -/
def envConsolFull : Env :=
  { getAsset := fun i =>
      if i = "w" then .ok winnerAssetFix
      else if i = "l1" then .ok loserFullAsset
      else .error "gone"
    getAlbumsForAsset := fun _ => .ok []
    download := fun _ => .ok 10
    deleteAssets := fun _ _ => .ok ()
    updateMetadata := fun _ => .ok ()
    transferAttempt := fun _ _ => true }

theorem consolidation_characterization_witness :
    consolidate_metadata envLookupFailEmpty analysisW = (none, []) ∧
    (consolidate_metadata envUpdateFail analysisW2).1 = none ∧
    (consolidate_metadata envConsolFull analysisW2).2.length ≤ 1 :=
  ⟨(consolidation_characterization envLookupFailEmpty cfgW analysisW).1 "offline" rfl,
    (consolidation_characterization envUpdateFail cfgW analysisW2).2.2.1 "boom" rfl,
    ((consolidation_characterization envConsolFull cfgW analysisW2).2.2.2.1 winnerAssetFix
      rfl (by decide)).2 1 (by decide)⟩

end Immich
